import Mathlib

/-!
Verification of the linearization/delinearization engine of the
`task-oriented-dialogue` repository.

The Lean definitions below are shallow embeddings of the Python sources:

* `Gtod.Mw.*`    embeds `gtod/state_tracking/d3st/create_multiwoz_schemaless_data.py`
                 (`_multiple_choice_answer`, `_process_one_turn`, `create_schemaless_data`).
* `Gtod.Sgd.*`   embeds `gtod/datasets/state_tracking/d3st/create_sgd_schemaless_data.py`
                 (`load_schema` slot reclassification, `_process_user_turn`, `process_turn`).
* `Gtod.Dec.*`   embeds `gtod/state_tracking/show_dont_tell/convert_sgd_t5x_sdt_preds_to_dstc8.py`
                 (`_create_categorical_slot_to_value_map`'s option-block regex and
                 `_normalize_value_prediction`).

Randomness (`random.shuffle`) is modelled by explicit shuffle oracles passed as
arguments; Python dictionaries are modelled as ordered association lists (they
preserve insertion order), and fallible code (`assert`, `raise`, `KeyError`)
returns `Except String`.
-/

namespace Gtod

/-! ## Generic helpers shared by the embeddings -/

/-- Association-list lookup (Python `dict[k]` / `k in dict`). -/
def alookup {α : Type} (k : String) : List (String × α) → Option α
  | [] => none
  | (k', v) :: rest => if k' = k then some v else alookup k rest

/-- Python `needle in haystack` prefix part: does `hay` start with `needle`? -/
def leadsWith : List Char → List Char → Bool
  | [], _ => true
  | _ :: _, [] => false
  | a :: as, b :: bs => a = b && leadsWith as bs

/-- Python substring containment `needle in hay` on char lists. -/
def containsSub (needle : List Char) : List Char → Bool
  | [] => leadsWith needle []
  | c :: rest => leadsWith needle (c :: rest) || containsSub needle rest

/-- Python `needle in hay` for strings (substring containment). -/
def strIn (needle hay : String) : Bool := containsSub needle.data hay.data

/-- First index of `v` in a list (Python `list.index`, as an `Option`). -/
def firstIdx (v : String) : List String → Option Nat
  | [] => none
  | x :: rest => if x = v then some 0 else (firstIdx v rest).map (· + 1)

/-- Python whitespace test used by `str.strip()`. -/
def isStripChar (c : Char) : Bool := c = ' ' || c = '\t' || c = '\n' || c = '\r'

/-- Python `str.strip()` on char lists. -/
def stripChars (l : List Char) : List Char :=
  ((l.dropWhile isStripChar).reverse.dropWhile isStripChar).reverse

/-- Python `str.strip()`. -/
def pyStrip (s : String) : String := String.mk (stripChars s.data)

/-- Python `value.replace(" ", "")`. -/
def removeSpaces (s : String) : String := String.mk (s.data.filter (· ≠ ' '))

/-- Python `utterance.replace("\t", " ")`. -/
def replaceTabs (s : String) : String :=
  String.mk (s.data.map fun c => if c = '\t' then ' ' else c)

/-- Characters before the first `'-'`. -/
def beforeDash : List Char → List Char
  | [] => []
  | c :: rest => if c = '-' then [] else c :: beforeDash rest

/-- Python `slot_name.split("-")[0]`
    (`multiwoz_utils.get_domain` and the SGD domain test). -/
def getDomain (slotName : String) : String := String.mk (beforeDash slotName.data)

/-- `string.ascii_lowercase` as characters. -/
def lettersC : List Char :=
  ['a','b','c','d','e','f','g','h','i','j','k','l','m',
   'n','o','p','q','r','s','t','u','v','w','x','y','z']

/-- One-character string. -/
def charStr (c : Char) : String := String.mk [c]

/-- `letters = list(string.ascii_lowercase)`: the 26 option letters as strings. -/
def lettersS : List String := lettersC.map charStr

/-- `" ".join(pieces)`. -/
def joinSpace : List String → String
  | [] => ""
  | [s] => s
  | s :: rest => s ++ " " ++ joinSpace rest

/-- Python `str.lower()` (per-character lowering). -/
def lowerStr (s : String) : String := String.mk (s.data.map Char.toLower)

/-- The `multiple_choice` configuration enum (`none` / `"a"` / `"1a"`). -/
inductive MCFormat
  | mcNone
  | mcA
  | mcOneA
  deriving DecidableEq, Repr

/-! ## Embedding of `create_multiwoz_schemaless_data.py` -/

namespace Mw

/-- `DescriptionType` enum of `d3st/common.py`. -/
inductive DescType
  | full_desc
  | full_desc_with_domain
  | item_name
  | shuffled_item_name
  deriving DecidableEq, Repr

/-- `multiwoz_utils.SlotInfo`. -/
structure SlotInfo where
  is_categorical : Bool
  possible_values : List String
  deriving DecidableEq, Repr

/-- `multiwoz_utils.SchemaInfo.slots_by_domain`: domain → slot name → `SlotInfo`,
    as nested ordered association lists. -/
def SchemaInfo := List (String × List (String × SlotInfo))

/-- The `Options` dataclass of `create_multiwoz_schemaless_data.py`. -/
structure Options where
  multiwoz_version : String
  description_type : DescType
  delimiter : String
  multiple_choice : MCFormat
  use_active_domains_only : Bool
  blocked_domains : List String
  use_target_separators : Bool

/-- `text_to_text_utils.TextToTextExample` (the fields the core produces). -/
structure TextToTextExample where
  src : String
  tgt : String
  dialog_id : String
  turn : Nat
  deriving DecidableEq, Repr

/-- Shuffle oracle standing for the calls to `random.shuffle`: `slotOrder` is the
    per-turn slot-name shuffle, `valOrder` the per-slot possible-value shuffle
    (keyed by slot name), `nameShuffle` the character shuffle used by
    `shuffled_item_name`.  Passing `id`-like oracles models `random_seed` runs
    where the shuffles happen to be identities; theorems that need the shuffle
    to be a permutation state that hypothesis explicitly. -/
structure Shuffles where
  slotOrder : List String → List String
  intentOrder : List String → List String
  valOrder : String → List String → List String
  nameShuffle : String → String

/-- The identity oracle (no reordering). -/
def idShuffles : Shuffles :=
  { slotOrder := id, intentOrder := id, valOrder := fun _ l => l, nameShuffle := id }

/-- `_multiple_choice_answer(slot_id, letters, possible_values_shuffled, value)`.
    Returns `Option.none` exactly where the Python function returns `None`
    (a `multiple_choice` format other than `"a"`/`"1a"` falls off the end). -/
def multipleChoiceAnswer (fmt : MCFormat) (slot_id : Nat) (letters : List String)
    (possible_values_shuffled : List String) (value : String) : Option String :=
  if value = "none" then some "none"
  else if value = "dontcare" then some "dontcare"
  else
    -- Often we have "guest house" when the categorical value is "guesthouse".
    let value := if value = "guest house" then "guesthouse" else value
    let letterAt? : Nat → Option String := fun i =>
      -- `letters[...index(value)]`; the caller's assert guarantees the index
      -- is within the 26 letters.
      some (letters.getD i "")
    let answer : String → Option String := fun letter =>
      match fmt with
      | .mcOneA => some (toString slot_id ++ letter)
      | .mcA => some letter
      | .mcNone => none
    match firstIdx value possible_values_shuffled with
    | some i => (letterAt? i).bind answer
    | none =>
      let value_nospaces := removeSpaces value
      match firstIdx value_nospaces possible_values_shuffled with
      | some i => (letterAt? i).bind answer
      | none => some "unknown"  -- give up and return unknown as the value

/-- The multiple-choice option block `" ".join(f"{letter}) {value}" ...)`
    appended to a categorical slot's description (format `"a"`);
    `zip(letters, possible_values_shuffled)` pairs letters with values in
    display order. -/
def mcOptionsTextA (pvs : List String) : String :=
  joinSpace ((lettersC.zip pvs).map fun p => charStr p.1 ++ ") " ++ p.2)

/-- The option block for format `"1a"`: `"{slot_id}{letter}) {value}"`. -/
def mcOptionsTextOneA (slot_id : Nat) (pvs : List String) : String :=
  joinSpace ((lettersC.zip pvs).map fun p => toString slot_id ++ charStr p.1 ++ ") " ++ p.2)

/-- The description string for one slot (lines 192-205 of
    `_process_one_turn`), before the option block is appended. -/
def slotDesc (opts : Options) (sh : Shuffles) (i : Nat) (slot_name : String)
    (full_desc : String) : String :=
  match opts.description_type with
  | .full_desc => toString i ++ opts.delimiter ++ full_desc
  | .full_desc_with_domain =>
      toString i ++ opts.delimiter ++ getDomain slot_name ++ "-" ++ full_desc
  | .item_name => toString i ++ opts.delimiter ++ slot_name
  | .shuffled_item_name => toString i ++ opts.delimiter ++ sh.nameShuffle slot_name

/-- Splitting a raw belief-state value into a value list (lines 238-250):
    split on `"|"`, `">"` or `"<"`, otherwise a singleton unless the version
    is `"2.2"`, which is a `ValueError`. -/
def splitValues (opts : Options) (values : String) : Except String (List String) :=
  if strIn "|" values then .ok (values.splitOn "|")
  else if strIn ">" values then .ok (values.splitOn ">")
  else if strIn "<" values then .ok (values.splitOn "<")
  else if opts.multiwoz_version ≠ "2.2" then .ok [values]
  else .error ("Invalid values " ++ values)

/-- Result of rendering one slot inside `_process_one_turn`: the prompt piece
    and, when the slot is in the belief state, the target state piece. -/
structure RenderedMwSlot where
  slot_name : String
  slot_id : Nat
  prefixPiece : String
  statePiece : Option String
  deriving Repr

/-- The full prompt description of one slot: the `slotDesc` piece plus, in the
    multiple-choice branch, the enumerated option block (with values
    re-obfuscated under `shuffled_item_name`). -/
def mwSlotFullDesc (opts : Options) (sh : Shuffles) (isMc : Bool) (i : Nat)
    (slot_name full_desc : String) (pvs : List String) : String :=
  let desc := slotDesc opts sh i slot_name full_desc
  if isMc then
    let pvs' := if opts.description_type = .shuffled_item_name
                then pvs.map sh.nameShuffle else pvs
    match opts.multiple_choice with
    | .mcA => desc ++ " " ++ mcOptionsTextA pvs'
    | .mcOneA => desc ++ " " ++ mcOptionsTextOneA i pvs'
    | .mcNone => desc
  else desc

/-- The target state piece `f"{i}{delimiter}{values_str}"` of a belief-state
    slot (lines 237-264): the raw value is split into a value list, each
    value is mapped through `_multiple_choice_answer` for categorical slots,
    and the results are `" | "`-joined. -/
def mwStatePiece (opts : Options) (isMc : Bool) (i : Nat) (pvs : List String)
    (raw : String) : Except String String := do
  let values ← splitValues opts raw
  let values ←
    if isMc then
      values.mapM fun val =>
        match multipleChoiceAnswer opts.multiple_choice i lettersS pvs val with
        | some a => Except.ok a
        | none => Except.error "TypeError: join of None"
    else pure values
  .ok (toString i ++ opts.delimiter ++ String.intercalate " | " values)

/-- `options.multiple_choice != "none" and slot.is_categorical`. -/
def mwIsMc (opts : Options) (slot : SlotInfo) : Bool :=
  opts.multiple_choice ≠ .mcNone && slot.is_categorical

/-- `possible_values_shuffled`: shuffled options in the multiple-choice
    branch, the initial `[]` otherwise. -/
def mwPvs (opts : Options) (sh : Shuffles) (slot_name : String)
    (slot : SlotInfo) : List String :=
  if mwIsMc opts slot then sh.valOrder slot_name slot.possible_values else []

/-- The body of the `for i, slot_name in enumerate(slot_names)` loop of
    `_process_one_turn` (lines 185-264). -/
def renderMwSlot (opts : Options) (sh : Shuffles) (schema_info : SchemaInfo)
    (slot_descriptions : List (String × List String))
    (belief_state : List (String × String)) (i : Nat) (slot_name : String) :
    Except String RenderedMwSlot := do
  let domain := getDomain slot_name
  -- `slot_descriptions[slot_name][0]`
  let full_desc ←
    match alookup slot_name slot_descriptions with
    | some (d :: _) => .ok d
    | some [] => .error ("IndexError: slot_descriptions " ++ slot_name)
    | none => .error ("KeyError: slot_descriptions " ++ slot_name)
  -- `schema_info.slots_by_domain[domain][slot_name]`
  let slot ←
    match (alookup domain schema_info).bind (alookup slot_name) with
    | some s => .ok s
    | none => .error ("KeyError: slots_by_domain " ++ slot_name)
  if mwIsMc opts slot && !((mwPvs opts sh slot_name slot).length < 26) then
    .error "AssertionError: len(possible_values_shuffled) < len(letters)"
  else
    match alookup slot_name belief_state with
    | none =>
      .ok ⟨slot_name, i, mwSlotFullDesc opts sh (mwIsMc opts slot) i slot_name full_desc
        (mwPvs opts sh slot_name slot), none⟩
    | some raw =>
      match mwStatePiece opts (mwIsMc opts slot) i (mwPvs opts sh slot_name slot) raw with
      | .error e => .error e
      | .ok piece =>
        .ok ⟨slot_name, i, mwSlotFullDesc opts sh (mwIsMc opts slot) i slot_name full_desc
          (mwPvs opts sh slot_name slot), some piece⟩

/-- Render all slots of one turn, with running index `i`. -/
def renderMwSlots (opts : Options) (sh : Shuffles) (schema_info : SchemaInfo)
    (slot_descriptions : List (String × List String))
    (belief_state : List (String × String)) :
    Nat → List String → Except String (List RenderedMwSlot)
  | _, [] => .ok []
  | i, slot_name :: rest => do
    let r ← renderMwSlot opts sh schema_info slot_descriptions belief_state i slot_name
    let rs ← renderMwSlots opts sh schema_info slot_descriptions belief_state (i + 1) rest
    .ok (r :: rs)

/-- `_process_one_turn` (lines 162-288). -/
def processOneTurn (opts : Options) (sh : Shuffles) (schema_info : SchemaInfo)
    (dialog_id : String) (turn : Nat) (belief_state : List (String × String))
    (history_str : String) (active_domains : List String)
    (slot_descriptions : List (String × List String)) :
    Except String TextToTextExample := do
  let slot_names := slot_descriptions.map Prod.fst
  let slot_names :=
    if opts.use_active_domains_only then
      slot_names.filter fun name => active_domains.contains (getDomain name)
    else slot_names
  let slot_names := sh.slotOrder slot_names
  let rendered ← renderMwSlots opts sh schema_info slot_descriptions belief_state 0 slot_names
  let prefix_pieces := rendered.map (·.prefixPiece)
  let state_pieces := rendered.filterMap (·.statePiece)
  -- Make sure all slots in the belief state end up in the target.
  if state_pieces.length ≠ belief_state.length then
    .error "Len of state_pieces must equal len of belief state."
  else
    let prefix_str := joinSpace prefix_pieces
    let state_separator := if opts.use_target_separators then " ; " else " "
    let state_str := "[states] " ++ String.intercalate state_separator state_pieces
    .ok { src := pyStrip (prefix_str ++ " " ++ pyStrip history_str)
          tgt := pyStrip state_str ++ " [intents] [req_slots]"
          dialog_id := dialog_id
          turn := turn }

/-- One MultiWOZ turn of the dataclass form used by `create_schemaless_data`. -/
structure MwTurn where
  utterance : String
  belief_state : List (String × String)

/-- `multiwoz_utils.extract_domains` (as a list; only used through membership,
    matching the Python `set`'s use). -/
def extractDomains (belief_state : List (String × String)) : List String :=
  belief_state.map fun p => getDomain p.1

/-- Python `bool(domains_in_turn & options.blocked_domains)`. -/
def intersectsBlocked (domains blocked : List String) : Bool :=
  domains.any fun d => blocked.contains d

/-- The turn loop of `create_schemaless_data` (lines 291-315) for one dialog.
    Blocked system turns `continue` before the history update, so their
    utterances are also skipped. -/
def processDialogTurns (opts : Options) (sh : Shuffles) (schema_info : SchemaInfo)
    (slot_descriptions : List (String × List String)) (dialog_id : String) :
    Nat → String → List MwTurn → Except String (List TextToTextExample)
  | _, _, [] => .ok []
  | turn_num, history_str, t :: rest => do
    let is_system := turn_num % 2 = 1
    let speaker := if is_system then "system" else "user"
    let utterance := replaceTabs (pyStrip t.utterance)
    let domains_in_turn := extractDomains t.belief_state
    if is_system && intersectsBlocked domains_in_turn opts.blocked_domains then
      -- `continue`: no example, and no history update either.
      processDialogTurns opts sh schema_info slot_descriptions dialog_id
        (turn_num + 1) history_str rest
    else do
      let exs ←
        if is_system then do
          let e ← processOneTurn opts sh schema_info dialog_id turn_num
            t.belief_state history_str domains_in_turn slot_descriptions
          pure [e]
        else pure []
      let history_str := history_str ++ "[" ++ speaker ++ "] " ++ utterance ++ " "
      let rs ← processDialogTurns opts sh schema_info slot_descriptions dialog_id
        (turn_num + 1) history_str rest
      .ok (exs ++ rs)

/-- `create_schemaless_data` over a list of dialogs. -/
def createSchemalessData (opts : Options) (sh : Shuffles) (schema_info : SchemaInfo)
    (slot_descriptions : List (String × List String))
    (dialogs : List (String × List MwTurn)) : Except String (List TextToTextExample) :=
  match dialogs with
  | [] => .ok []
  | (dialog_id, turns) :: rest => do
    let exs ← processDialogTurns opts sh schema_info slot_descriptions dialog_id 0 "" turns
    let rs ← createSchemalessData opts sh schema_info slot_descriptions rest
    .ok (exs ++ rs)

end Mw

/-! ## Embedding of `convert_sgd_t5x_sdt_preds_to_dstc8.py` (prediction decoder) -/

namespace Dec

/-- `[a-z]` of the option-block regex `([a-z])\) (.*?)(?=[a-z]\)|$)`. -/
def isLowerAZ (c : Char) : Bool := 'a' ≤ c && c ≤ 'z'

/-- Does the remaining input start with `')'` (the regex lookahead's second
    character)? -/
def leadsParen : List Char → Bool
  | [] => false
  | c :: _ => c = ')'

/-- Close a pending capture: emit `(letter, captured.strip())`.  The capture
    accumulator is kept reversed. -/
def finishOpt : Option (Char × List Char) → List (Char × String)
  | some (l, acc) => [(l, String.mk (stripChars acc.reverse))]
  | none => []

/-- One-pass model of `re.findall(r"([a-z])\) (.*?)(?=[a-z]\)|$)", options_str)`
    (lines 77-80): a match starts at `letter`, `')'`, `' '`; its non-greedy
    capture ends at the first following position where a lowercase letter is
    immediately followed by `')'` (the lookahead), or at the end of the input.
    Faithful to the regex on newline-free input (Python `.` does not match
    `'\n'`). -/
def scanOpts : Option (Char × List Char) → List Char → List (Char × String)
  | cur, [] => finishOpt cur
  | cur, c :: rest =>
    if isLowerAZ c && leadsParen rest then
      finishOpt cur ++
        match rest with
        | ')' :: ' ' :: tail => scanOpts (some (c, [])) tail
        | r => scanOpts none r
    else
      match cur with
      | some (l, acc) => scanOpts (some (l, c :: acc)) rest
      | none => scanOpts none rest
termination_by _ l => l.length
decreasing_by all_goals simp_all +arith [List.length]

/-- The letter→value map parsed from one slot's rendered option block
    (the inner loop of `_create_categorical_slot_to_value_map`), with
    single-letter string keys as used by `_normalize_value_prediction`. -/
def parseOptionBlock (s : String) : List (String × String) :=
  (scanOpts none s.data).map fun p => (charStr p.1, p.2)

/-- `_normalize_value_prediction(slot_name, value, slot_to_option_to_value)`
    (lines 98-120).  `Option.none` models the Python `None` return ("none"
    predictions produce no slot update); every other branch returns the value,
    possibly substituted through the option map.  Unrecognized values are
    logged and returned unchanged. -/
def normalizeValuePrediction (slot_name value : String)
    (slot_to_option_to_value : List (String × List (String × String))) :
    Option String :=
  let value := pyStrip value
  if value = "none" then none
  else
    match alookup slot_name slot_to_option_to_value with
    | some opts =>
      match alookup value opts with
      | some mapped => some mapped
      | none => some value  -- logged ("Unexpected slot scenario") unless "dontcare"
    | none => some value

/-- No lowercase letter immediately followed by `')'` occurs in the text:
    such a pair is exactly the decoder regex's lookahead, so a value
    containing one would be truncated by the parse. -/
def noMarker : List Char → Bool
  | c :: d :: rest => !(isLowerAZ c && d = ')') && noMarker (d :: rest)
  | _ => true

/-- An option value that survives the option-block round trip: it contains no
    letter-`')'` pair, no newline (Python `.` does not match `'\n'`), and no
    leading/trailing whitespace (the decoder strips captures). -/
def wfValue (s : String) : Bool :=
  noMarker s.data &&
  s.data.all (fun c => c ≠ '\n') &&
  (match s.data.head? with | some c => !isStripChar c | none => true) &&
  (match s.data.getLast? with | some c => !isStripChar c | none => true)

/-- The character stream of a rendered option block
    `"l1) v1 l2) v2 ... ln) vn"`. -/
def blockChars : List (Char × String) → List Char
  | [] => []
  | (c, v) :: rest =>
      c :: ')' :: ' ' :: (v.data ++ match rest with
        | [] => []
        | _ => ' ' :: blockChars rest)

/-- The stream that follows a value inside a block: empty at the end, a
    separating space plus the remaining block otherwise. -/
def blockSuffix (ps : List (Char × String)) : List Char :=
  match ps with
  | [] => []
  | _ => ' ' :: blockChars ps

end Dec

/-! ## Embedding of `create_sgd_schemaless_data.py` -/

namespace Sgd

/-- `DataFormat` enum (`full_desc` / `item_name` / `rand_name`). -/
inductive DataFormat
  | full_desc
  | item_name
  | rand_name
  deriving DecidableEq, Repr

/-- The configuration fields of `CliConfig` that the turn linearizer reads
    (shuffling is modelled by the `Mw.Shuffles` oracle). -/
structure Config where
  delimiter : String
  data_format : DataFormat
  lowercase : Bool
  multiple_choice : MCFormat

/-- `SchemaInfo` of `create_sgd_schemaless_data.py`.  `slots`/`intents` keep
    the ordered key→description pairs; the remaining dictionaries are total
    functions, faithful on the keys `load_schema` populates (exactly the
    schema's slot/intent names, which is all the code ever looks up). -/
structure SchemaInfo where
  slots : List (String × String)
  intents : List (String × String)
  is_categorical : String → Bool
  possible_values : String → List String
  slots_rand_name : String → String
  intents_rand_name : String → String

/-- `_merge_domain_slot`. -/
def mergeDomainSlot (domain slot_name : String) : String :=
  domain ++ "-" ++ slot_name

/-- Python `str.isdigit` (nonempty, all digits). -/
def pyIsDigit (s : String) : Bool := !s.data.isEmpty && s.data.all Char.isDigit

/-- The categorical-slot normalization of `load_schema` (lines 212-224): a
    categorical slot whose possible values are all numeric is reclassified as
    non-categorical with no options. -/
def loadSchemaSlotInfo (is_cat : Bool) (poss_vals : List String) :
    Bool × List String :=
  if is_cat && poss_vals.all pyIsDigit then (false, [])
  else (is_cat, poss_vals)

/-- One frame of a user turn: `frames["service"]` and `frames["state"]`. -/
structure Frame where
  service : String
  slot_values : List (String × List String)
  active_intent : String
  requested_slots : List String

/-- `FrameState` of `create_sgd_schemaless_data.py`. -/
structure FrameState where
  slot_desc : List String := []
  intent_desc : List String := []
  intent_ids : List String := []
  req_slots : List String := []

/-- Update one key of the ordered cumulative-state association list
    (`cumu_slots.update({slot: ...})`, keys are unique). -/
def cumuUpdate (k v : String) : List (String × String) → List (String × String)
  | [] => []
  | (k', v') :: rest =>
      if k' = k then (k', v) :: rest else (k', v') :: cumuUpdate k v rest

/-- `cumu_slots[slot]` (the loop only reads keys present in the ordered dict,
    which holds every schema slot). -/
def cumuGet (cumu : List (String × String)) (slot : String) : String :=
  (alookup slot cumu).getD ""

/-- The cumulative-state merge at the top of `_process_user_turn`
    (lines 278-289): domain-qualify the turn's updates, reject unknown slots,
    and overwrite with the `" | "`-joined value list. -/
def mergeSlotValues (domain : String) (cumu : List (String × String)) :
    List (String × List String) → Except String (List (String × String))
  | [] => .ok cumu
  | (slot_name, value) :: rest =>
    let slot := mergeDomainSlot domain slot_name
    if (alookup slot cumu).isSome then
      mergeSlotValues domain (cumuUpdate slot (String.intercalate " | " value) cumu) rest
    else
      .error ("Unknown slot: " ++ slot ++ ".")

/-- Description selection per `data_format` (lines 300-307). -/
def descFor (cfg : Config) (item_desc : SchemaInfo) (slot : String) : String :=
  match cfg.data_format with
  | .full_desc => (alookup slot item_desc.slots).getD ""
  | .item_name => slot
  | .rand_name => item_desc.slots_rand_name slot

/-- The multiple-choice pieces `f"{slot_id}{letter}) {value}"` /
    `f"{letter}) {value}"` (lines 320-325); only the `"1a"` and `"a"` formats
    append pieces. -/
def mcPieces (fmt : MCFormat) (slot_id : Nat) (pvs : List String) : List String :=
  match fmt with
  | .mcOneA => (lettersS.zip pvs).map fun p => toString slot_id ++ p.1 ++ ") " ++ p.2
  | .mcA => (lettersS.zip pvs).map fun p => p.1 ++ ") " ++ p.2
  | .mcNone => []

/-- One slot rendered by `_process_user_turn`: its assigned LocalId, the
    description piece appended to `state_dict.slot_desc`, and the piece
    appended to `turn_info.out_state_str`. -/
structure RenderedSlot where
  slot : String
  slot_id : Nat
  descPiece : String
  statePiece : String
  deriving Repr, DecidableEq

/-- The state-string contribution of one active-domain slot (lines 337-350):
    empty when the cumulative value is empty; the multiple-choice option
    reference `t + str(slot_id) + letter` for an active categorical value
    (which must be a member of the option list — `assert value in
    possible_values`); the raw value `t + value` otherwise. -/
def sgdStatePiece (cfg : Config) (isMc : Bool) (slot_id : Nat) (pvs : List String)
    (value : String) : Except String String :=
  let t := " " ++ toString slot_id ++ cfg.delimiter
  if value ≠ "" then
    if isMc && value ≠ "dontcare" then
      match firstIdx value pvs with
      | some j => .ok (t ++ toString slot_id ++ lettersS.getD j "")
      | none => .error "AssertionError: value in possible_values"
    else .ok (t ++ value)
  else .ok ""

/-- The condition `config.multiple_choice != none and item_desc.is_categorical[slot]`. -/
def slotIsMc (cfg : Config) (item_desc : SchemaInfo) (slot : String) : Bool :=
  cfg.multiple_choice ≠ .mcNone && item_desc.is_categorical slot

/-- The (possibly shuffled) option list of a slot; `[]` outside the
    multiple-choice branch (`possible_values_shuffled` is only assigned
    there). -/
def slotPvs (cfg : Config) (sh : Mw.Shuffles) (item_desc : SchemaInfo)
    (slot : String) : List String :=
  if slotIsMc cfg item_desc slot then sh.valOrder slot (item_desc.possible_values slot)
  else []

/-- The description piece `t + desc(.lower()) + " "` appended to
    `state_dict.slot_desc` (lines 300-334), with the multiple-choice option
    block appended for categorical slots. -/
def sgdDescPiece (cfg : Config) (sh : Mw.Shuffles) (item_desc : SchemaInfo)
    (slot_id : Nat) (slot : String) : String :=
  let desc := descFor cfg item_desc slot
  let desc := if slotIsMc cfg item_desc slot then
                desc ++ " " ++ joinSpace (mcPieces cfg.multiple_choice slot_id
                  (slotPvs cfg sh item_desc slot))
              else desc
  let t := " " ++ toString slot_id ++ cfg.delimiter
  if cfg.lowercase then t ++ lowerStr desc ++ " " else t ++ desc ++ " "

/-- One iteration of the `for slot in slots` loop of `_process_user_turn`
    (lines 299-356): `Option.none` when the slot is not of the utterance
    domain (`domain in slot.split("-")[0]` fails) and is skipped without
    consuming an id.  The option-count assertion (line 317) runs for every
    categorical slot, of the utterance domain or not. -/
def renderOneSgdSlot (cfg : Config) (sh : Mw.Shuffles) (item_desc : SchemaInfo)
    (domain : String) (cumu : List (String × String)) (slot_id : Nat)
    (slot : String) : Except String (Option RenderedSlot) :=
  if slotIsMc cfg item_desc slot && !((slotPvs cfg sh item_desc slot).length < 26) then
    .error "AssertionError: len(possible_values) < len(string.ascii_lowercase)"
  else if strIn domain (getDomain slot) then
    match sgdStatePiece cfg (slotIsMc cfg item_desc slot) slot_id
        (slotPvs cfg sh item_desc slot) (cumuGet cumu slot) with
    | .error e => .error e
    | .ok state_str =>
      .ok (some ⟨slot, slot_id, sgdDescPiece cfg sh item_desc slot_id slot,
        if cfg.lowercase then lowerStr state_str else state_str⟩)
  else .ok none

/-- The `for slot in slots` loop of `_process_user_turn`: renders each slot of
    the utterance domain, assigning sequential LocalIds starting at `slot_id`. -/
def renderSgdSlots (cfg : Config) (sh : Mw.Shuffles) (item_desc : SchemaInfo)
    (domain : String) (cumu : List (String × String)) :
    Nat → List String → Except String (List RenderedSlot)
  | _, [] => .ok []
  | slot_id, slot :: rest => do
    let r? ← renderOneSgdSlot cfg sh item_desc domain cumu slot_id slot
    match r? with
    | some r => do
        let rs ← renderSgdSlots cfg sh item_desc domain cumu (slot_id + 1) rest
        .ok (r :: rs)
    | none => renderSgdSlots cfg sh item_desc domain cumu slot_id rest

/-- Drop the final character (Python `t[:-1]`). -/
def dropLastChar (s : String) : String := String.mk s.data.dropLast

/-- The `for intent in intents` loop of `_process_user_turn` (lines 365-389):
    returns the intent description pieces and the active-intent id markers. -/
def renderSgdIntents (cfg : Config) (item_desc : SchemaInfo) (domain : String)
    (active_intent : String) : Nat → List String → List String × List String
  | _, [] => ([], [])
  | intent_id, intent :: rest =>
    let desc :=
      match cfg.data_format with
      | .full_desc => (alookup intent item_desc.intents).getD ""
      | .item_name => intent
      | .rand_name => item_desc.intents_rand_name intent
    if strIn domain intent then
      let qualified := domain ++ "-" ++ active_intent
      let t := " i" ++ toString intent_id ++ cfg.delimiter
      let intent_str := if qualified = intent then " " ++ dropLastChar t else ""
      let descPiece := if cfg.lowercase then t ++ lowerStr desc ++ " " else t ++ desc ++ " "
      let (descs, ids) := renderSgdIntents cfg item_desc domain active_intent (intent_id + 1) rest
      (descPiece :: descs, (if intent_str ≠ "" then [intent_str] else []) ++ ids)
    else
      renderSgdIntents cfg item_desc domain active_intent intent_id rest

/-- The requested-slots loop of `_process_user_turn` (lines 392-398): each
    requested slot must already carry a LocalId, and the ids are emitted in
    the exact order the user requested them. -/
def processReqSlots (domain : String) (desc_to_slot_id : List (String × Nat)) :
    List String → Except String (List String)
  | [] => .ok []
  | req_slot :: rest =>
    match alookup (domain ++ "-" ++ req_slot) desc_to_slot_id with
    | none => .error "AssertionError: Requested slots must be in the slot list!"
    | some req_slot_id => do
        let rs ← processReqSlots domain desc_to_slot_id rest
        .ok (toString req_slot_id :: rs)

/-- Everything `_process_user_turn` produces: the updated cumulative state,
    the appended `state_dict`, the text appended to `out_state_str`, the
    returned `desc_to_slot_id` map, and the per-slot rendering detail. -/
structure UserTurnResult where
  cumu : List (String × String)
  state_dict : FrameState
  state_add : String
  desc_to_slot_id : List (String × Nat)
  rendered : List RenderedSlot

/-- `_process_user_turn` (lines 255-400). -/
def processUserTurn (cfg : Config) (sh : Mw.Shuffles) (item_desc : SchemaInfo)
    (frame : Frame) (cumu : List (String × String)) (state_dict : FrameState) :
    Except String UserTurnResult := do
  let domain := frame.service
  let cumu ← mergeSlotValues domain cumu frame.slot_values
  let slots := sh.slotOrder (item_desc.slots.map Prod.fst)
  -- In multi-domain turn case, desc_prefix already contains desc from the
  -- previous domain.
  let slot_id := state_dict.slot_desc.length
  let rendered ← renderSgdSlots cfg sh item_desc domain cumu slot_id slots
  let desc_to_slot_id := rendered.map fun r => (r.slot, r.slot_id)
  let state_add := String.join (rendered.map (·.statePiece))
  let intents := sh.intentOrder (item_desc.intents.map Prod.fst)
  let intent_id := state_dict.intent_desc.length
  let (intent_descs, intent_ids) :=
    renderSgdIntents cfg item_desc domain frame.active_intent intent_id intents
  let req ← processReqSlots domain desc_to_slot_id frame.requested_slots
  .ok { cumu := cumu
        state_dict :=
          { slot_desc := state_dict.slot_desc ++ rendered.map (·.descPiece)
            intent_desc := state_dict.intent_desc ++ intent_descs
            intent_ids := state_dict.intent_ids ++ intent_ids
            req_slots := state_dict.req_slots ++ req }
        state_add := state_add
        desc_to_slot_id := desc_to_slot_id
        rendered := rendered }

/-- Per-frame outputs of `process_turn` for a user turn. -/
structure FrameOut where
  out_state_str : String
  out_intent_str : String
  desc_to_slot_id : List (String × Nat)
  rendered : List RenderedSlot

/-- The frame loop of `process_turn` (lines 486-523) for a user turn: each
    frame starts from a fresh `FrameState` (line 489) and a reset
    `out_state_str`/`out_intent_str`; the cumulative state is threaded through
    the frames. -/
def processTurnUser (cfg : Config) (sh : Mw.Shuffles) (item_desc : SchemaInfo)
    (cumu : List (String × String)) :
    List Frame → Except String (List FrameOut × List (String × String))
  | [] => .ok ([], cumu)
  | frame :: rest => do
    let state_dict : FrameState := {}
    let utr ← processUserTurn cfg sh item_desc frame cumu state_dict
    let out_state_str := "[states]" ++ utr.state_add
    let out_intent_str :=
      "[intents]" ++ String.join utr.state_dict.intent_ids
        ++ " [req_slots] " ++ joinSpace utr.state_dict.req_slots
    let fo : FrameOut :=
      { out_state_str := out_state_str
        out_intent_str := out_intent_str
        desc_to_slot_id := utr.desc_to_slot_id
        rendered := utr.rendered }
    let (fos, cumu') ← processTurnUser cfg sh item_desc utr.cumu rest
    .ok (fo :: fos, cumu')

end Sgd

/-! ## Concrete fixtures used by witnesses and counterexamples -/

/-- A small SGD configuration: stable order, no lowercasing, no multiple choice. -/
def fixCfg : Sgd.Config :=
  { delimiter := "=", data_format := .item_name, lowercase := false,
    multiple_choice := .mcNone }

/-- A two-domain schema with three slots, none categorical. -/
def fixSchema : Sgd.SchemaInfo :=
  { slots := [("A-x", "dx"), ("A-z", "dz"), ("B-y", "dy")], intents := []
    is_categorical := fun _ => false, possible_values := fun _ => []
    slots_rand_name := fun s => s, intents_rand_name := fun s => s }

/-- Initial cumulative state for `fixSchema` (all slots empty). -/
def fixCumu : List (String × String) := [("A-x", ""), ("A-z", ""), ("B-y", "")]

/-- A user frame of domain `A` setting slot `x` and requesting `z` then `x`
    (deliberately not sorted). -/
def fixFrame : Sgd.Frame :=
  { service := "A", slot_values := [("x", ["v1"])], active_intent := ""
    requested_slots := ["z", "x"] }

/-- The result of `_process_user_turn` on the fixture (the fallback branch is
    never taken: the call succeeds). -/
def fixUtr : Sgd.UserTurnResult :=
  match Sgd.processUserTurn fixCfg Mw.idShuffles fixSchema fixFrame fixCumu {} with
  | .ok u => u
  | .error _ => ⟨[], {}, "", [], []⟩

/-- Frame of domain `A` setting `x`, for the multi-frame turn fixture. -/
def fixFrameA : Sgd.Frame :=
  { service := "A", slot_values := [("x", ["v1"])], active_intent := ""
    requested_slots := [] }

/-- Frame of domain `B` with no updates, for the multi-frame turn fixture. -/
def fixFrameB : Sgd.Frame :=
  { service := "B", slot_values := [], active_intent := "", requested_slots := [] }

/-- A one-slot schema whose slot is categorical with two options. -/
def fixSchemaCat : Sgd.SchemaInfo :=
  { slots := [("A-x", "dx")], intents := []
    is_categorical := fun _ => true, possible_values := fun _ => ["mon", "tue"]
    slots_rand_name := fun s => s, intents_rand_name := fun s => s }

/-- Exactly 26 option values. -/
def pv26 : List String := (List.range 26).map fun n => "v" ++ toString n

/-- A one-slot schema whose categorical slot has exactly 26 options. -/
def fixSchema26 : Sgd.SchemaInfo :=
  { slots := [("A-x", "dx")], intents := []
    is_categorical := fun _ => true, possible_values := fun _ => pv26
    slots_rand_name := fun s => s, intents_rand_name := fun s => s }

/-- MultiWOZ options: multiple-choice `"a"`, nothing blocked. -/
def mwOptsA : Mw.Options :=
  { multiwoz_version := "2.4", description_type := .full_desc, delimiter := ":"
    multiple_choice := .mcA, use_active_domains_only := false
    blocked_domains := [], use_target_separators := false }

/-- MultiWOZ schema with one categorical `train-day` slot. -/
def mwSchemaCat : Mw.SchemaInfo :=
  [("train",
    [("train-day", { is_categorical := true, possible_values := ["monday", "tuesday"] })])]

/-- MultiWOZ options with the `hotel` domain blocked and no multiple choice. -/
def mwOptsBlocked : Mw.Options :=
  { multiwoz_version := "2.4", description_type := .item_name, delimiter := ":"
    multiple_choice := .mcNone, use_active_domains_only := false
    blocked_domains := ["hotel"], use_target_separators := false }

/-- MultiWOZ schema with one `hotel` and one `train` slot. -/
def mwSchemaHT : Mw.SchemaInfo :=
  [("hotel", [("hotel-area", { is_categorical := false, possible_values := [] })]),
   ("train", [("train-day", { is_categorical := false, possible_values := [] })])]

/-- Slot descriptions for `mwSchemaHT`. -/
def mwDescsHT : List (String × List String) :=
  [("hotel-area", ["hotel area"]), ("train-day", ["train day"])]

/-- Two dialogs: one whose system turn is active in `train` only, and one
    whose system turn has an empty belief state. -/
def mwDialogsHT : List (String × List Mw.MwTurn) :=
  [("d1", [{ utterance := "hi", belief_state := [] },
           { utterance := "sys resp", belief_state := [("train-day", "monday")] }]),
   ("d2", [{ utterance := "hi2", belief_state := [] },
           { utterance := "sys2", belief_state := [] }])]

/-- The rendered slots of the `train`-active turn over `mwSchemaHT` (the
    fallback branch is never taken: the call succeeds). -/
def mwWitnessRendered : List Mw.RenderedMwSlot :=
  match Mw.renderMwSlots mwOptsBlocked Mw.idShuffles mwSchemaHT mwDescsHT
      [("train-day", "monday")] 0 ["hotel-area", "train-day"] with
  | .ok rs => rs
  | .error _ => []

/-! ## General lemmas about the embeddings -/

theorem string_eq_empty_iff (s : String) : s = "" ↔ s.data = [] := by
  rw [String.ext_iff]

theorem lowerStr_eq_empty_iff (s : String) : lowerStr s = "" ↔ s = "" := by
  rw [string_eq_empty_iff, string_eq_empty_iff, lowerStr]
  simp

theorem append_ne_empty_left {s : String} (t : String) (h : s ≠ "") : s ++ t ≠ "" := by
  intro hc
  apply h
  rw [string_eq_empty_iff] at hc ⊢
  rw [String.data_append] at hc
  exact (List.append_eq_nil.mp hc).1

theorem space_ne_empty : (" " : String) ≠ "" := by decide

theorem space_append2_ne_empty (a b : String) : " " ++ a ++ b ≠ "" :=
  append_ne_empty_left b (append_ne_empty_left a space_ne_empty)

theorem space_append3_ne_empty (a b c : String) : " " ++ a ++ b ++ c ≠ "" :=
  append_ne_empty_left c (space_append2_ne_empty a b)

theorem space_append4_ne_empty (a b c d : String) : " " ++ a ++ b ++ c ++ d ≠ "" :=
  append_ne_empty_left d (space_append3_ne_empty a b c)

theorem sgdStatePiece_ok (cfg : Sgd.Config) (isMc : Bool) (sid : Nat)
    (pvs : List String) (value s : String)
    (h : Sgd.sgdStatePiece cfg isMc sid pvs value = .ok s) :
    s ≠ "" ↔ value ≠ "" := by
  unfold Sgd.sgdStatePiece at h
  split at h
  case isTrue hv =>
    have hne : s ≠ "" := by
      split at h
      · split at h
        · cases h
          exact space_append4_ne_empty _ _ _ _
        · cases h
      · cases h
        exact space_append3_ne_empty _ _ _
    simp [hne, hv]
  case isFalse hv =>
    cases h
    push_neg at hv
    simp [hv]

/-- Case analysis of `renderOneSgdSlot`: a skipped slot is exactly a
    non-utterance-domain slot, and a rendered slot carries the given id and a
    state piece that is non-empty iff the cumulative value is non-empty. -/
theorem renderOneSgdSlot_cases (cfg : Sgd.Config) (sh : Mw.Shuffles)
    (item_desc : Sgd.SchemaInfo) (domain : String) (cumu : List (String × String))
    (sid : Nat) (slot : String) :
    ∀ r?, Sgd.renderOneSgdSlot cfg sh item_desc domain cumu sid slot = .ok r? →
      (r? = none ↔ strIn domain (getDomain slot) = false) ∧
      (∀ r, r? = some r →
        r.slot = slot ∧ r.slot_id = sid ∧
        (r.statePiece ≠ "" ↔ Sgd.cumuGet cumu r.slot ≠ "")) := by
  intro r? h
  unfold Sgd.renderOneSgdSlot at h
  split at h
  · cases h
  · split at h
    case isTrue hdom =>
      cases hstate : Sgd.sgdStatePiece cfg (Sgd.slotIsMc cfg item_desc slot) sid
          (Sgd.slotPvs cfg sh item_desc slot) (Sgd.cumuGet cumu slot) with
      | error e => rw [hstate] at h; cases h
      | ok state_str =>
        rw [hstate] at h
        cases h
        have hiff := sgdStatePiece_ok _ _ _ _ _ _ hstate
        refine ⟨by simp [hdom], ?_⟩
        intro r hr
        cases hr
        refine ⟨rfl, rfl, ?_⟩
        simp only
        by_cases hl : cfg.lowercase
        · simp only [hl, if_true]
          rw [ne_eq, lowerStr_eq_empty_iff]
          exact hiff
        · simp only [hl, Bool.false_eq_true, if_false]
          exact hiff
    case isFalse hdom =>
      cases h
      refine ⟨by simp [hdom], ?_⟩
      intro r hr
      cases hr

/-- Splitting `renderSgdSlots` on success: the rendered slots are exactly the
    utterance-domain slots in display order, ids increase sequentially from
    `sid`, and a slot's state piece is non-empty iff its cumulative value is
    non-empty. -/
theorem renderSgdSlots_ok (cfg : Sgd.Config) (sh : Mw.Shuffles)
    (item_desc : Sgd.SchemaInfo) (domain : String) (cumu : List (String × String)) :
    ∀ (slots : List String) (sid : Nat) (rs : List Sgd.RenderedSlot),
      Sgd.renderSgdSlots cfg sh item_desc domain cumu sid slots = .ok rs →
      rs.map (·.slot) = slots.filter (fun s => strIn domain (getDomain s)) ∧
      (∀ r ∈ rs, r.statePiece ≠ "" ↔ Sgd.cumuGet cumu r.slot ≠ "") ∧
      rs.map (·.slot_id) = List.range' sid rs.length := by
  intro slots
  induction slots with
  | nil =>
    intro sid rs h
    simp only [Sgd.renderSgdSlots] at h
    cases h
    simp
  | cons slot rest ih =>
    intro sid rs h
    rw [Sgd.renderSgdSlots] at h
    simp only [Bind.bind, Except.bind] at h
    cases hone : Sgd.renderOneSgdSlot cfg sh item_desc domain cumu sid slot with
    | error e => rw [hone] at h; cases h
    | ok r? =>
      rw [hone] at h
      obtain ⟨hskip, hsome⟩ := renderOneSgdSlot_cases cfg sh item_desc domain cumu sid slot r? hone
      cases r? with
      | none =>
        obtain ⟨ih1, ih2, ih3⟩ := ih sid rs h
        have hdom : strIn domain (getDomain slot) = false := hskip.mp rfl
        refine ⟨?_, ih2, ih3⟩
        rw [ih1]
        simp [hdom]
      | some r =>
        cases hrest : Sgd.renderSgdSlots cfg sh item_desc domain cumu (sid + 1) rest with
        | error e => rw [hrest] at h; cases h
        | ok rs' =>
          rw [hrest] at h
          cases h
          obtain ⟨ih1, ih2, ih3⟩ := ih (sid + 1) rs' hrest
          obtain ⟨hr1, hr2, hr3⟩ := hsome r rfl
          have hdom : ¬ strIn domain (getDomain slot) = false := by
            intro hc
            exact Option.noConfusion (hskip.mpr hc)
          rw [Bool.not_eq_false] at hdom
          refine ⟨?_, ?_, ?_⟩
          · simp [hdom, ih1, hr1]
          · intro x hx
            rw [List.mem_cons] at hx
            rcases hx with hx | hx
            · subst hx; exact hr3
            · exact ih2 x hx
          · simp only [List.map_cons, ih3, List.length_cons, List.range'_succ, hr2]

/-- Success characterization of the requested-slots loop. -/
theorem processReqSlots_ok (domain : String) (d2id : List (String × Nat)) :
    ∀ (reqs : List String) (out : List String),
      Sgd.processReqSlots domain d2id reqs = .ok out →
      out = reqs.map (fun r => toString ((alookup (domain ++ "-" ++ r) d2id).getD 0)) ∧
      ∀ r ∈ reqs, (alookup (domain ++ "-" ++ r) d2id).isSome := by
  intro reqs
  induction reqs with
  | nil =>
    intro out h
    simp only [Sgd.processReqSlots] at h
    cases h
    simp
  | cons req rest ih =>
    intro out h
    rw [Sgd.processReqSlots] at h
    cases hl : alookup (domain ++ "-" ++ req) d2id with
    | none => rw [hl] at h; cases h
    | some i =>
      rw [hl] at h
      simp only [Bind.bind, Except.bind] at h
      cases hrest : Sgd.processReqSlots domain d2id rest with
      | error e => rw [hrest] at h; cases h
      | ok out' =>
        rw [hrest] at h
        cases h
        obtain ⟨ih1, ih2⟩ := ih out' hrest
        refine ⟨?_, ?_⟩
        · simp [ih1, hl]
        · intro r hr
          rw [List.mem_cons] at hr
          rcases hr with hr | hr
          · subst hr; simp [hl]
          · exact ih2 r hr

/-- Destructuring a successful `_process_user_turn` run into its phases. -/
theorem processUserTurn_ok (cfg : Sgd.Config) (sh : Mw.Shuffles)
    (item_desc : Sgd.SchemaInfo) (frame : Sgd.Frame)
    (cumu0 : List (String × String)) (state_dict : Sgd.FrameState)
    (utr : Sgd.UserTurnResult)
    (h : Sgd.processUserTurn cfg sh item_desc frame cumu0 state_dict = .ok utr) :
    ∃ cumu1 rendered req,
      Sgd.mergeSlotValues frame.service cumu0 frame.slot_values = .ok cumu1 ∧
      Sgd.renderSgdSlots cfg sh item_desc frame.service cumu1
        state_dict.slot_desc.length (sh.slotOrder (item_desc.slots.map Prod.fst)) =
        .ok rendered ∧
      Sgd.processReqSlots frame.service (rendered.map fun r => (r.slot, r.slot_id))
        frame.requested_slots = .ok req ∧
      utr.cumu = cumu1 ∧
      utr.rendered = rendered ∧
      utr.desc_to_slot_id = rendered.map (fun r => (r.slot, r.slot_id)) ∧
      utr.state_add = String.join (rendered.map (·.statePiece)) ∧
      utr.state_dict.req_slots = state_dict.req_slots ++ req := by
  unfold Sgd.processUserTurn at h
  simp only [Bind.bind, Except.bind] at h
  cases hm : Sgd.mergeSlotValues frame.service cumu0 frame.slot_values with
  | error e => rw [hm] at h; cases h
  | ok cumu1 =>
    rw [hm] at h
    dsimp only at h
    cases hr : Sgd.renderSgdSlots cfg sh item_desc frame.service cumu1
        state_dict.slot_desc.length (sh.slotOrder (item_desc.slots.map Prod.fst)) with
    | error e => rw [hr] at h; cases h
    | ok rendered =>
      rw [hr] at h
      dsimp only at h
      cases hq : Sgd.processReqSlots frame.service
          (rendered.map fun r => (r.slot, r.slot_id)) frame.requested_slots with
      | error e => rw [hq] at h; cases h
      | ok req =>
        rw [hq] at h
        dsimp only at h
        cases h
        exact ⟨cumu1, rendered, req, rfl, hr, hq, rfl, rfl, rfl, rfl, rfl⟩

/-! ## Claim theorems -/

/-- C6: for every successfully rendered user turn, the rendered slots are
exactly the schema slots of the active domain (their descriptions all appear
in the prompt), and a slot contributes a (non-empty) value to the target
state string iff its entry in the cumulative slot state — after this turn's
update — is non-empty; a never-set slot contributes nothing. -/
theorem claim_C6 (cfg : Sgd.Config) (sh : Mw.Shuffles) (item_desc : Sgd.SchemaInfo)
    (frame : Sgd.Frame) (cumu0 : List (String × String)) (state_dict : Sgd.FrameState)
    (utr : Sgd.UserTurnResult)
    (h : Sgd.processUserTurn cfg sh item_desc frame cumu0 state_dict = .ok utr) :
    utr.rendered.map (·.slot) =
      (sh.slotOrder (item_desc.slots.map Prod.fst)).filter
        (fun s => strIn frame.service (getDomain s)) ∧
    ∀ r ∈ utr.rendered, (r.statePiece ≠ "" ↔ Sgd.cumuGet utr.cumu r.slot ≠ "") := by
  obtain ⟨cumu1, rendered, req, _, hr, _, hc, hrend, _, _, _⟩ :=
    processUserTurn_ok cfg sh item_desc frame cumu0 state_dict utr h
  obtain ⟨h1, h2, _⟩ := renderSgdSlots_ok cfg sh item_desc frame.service cumu1 _ _ _ hr
  rw [hrend, hc]
  exact ⟨h1, h2⟩

/-- C6 witness: on the fixture turn, slots `A-x` and `A-z` are rendered, the
set slot `A-x` contributes a state piece, and the never-set `A-z` does not. -/
theorem claim_C6_witness :
    fixUtr.rendered.map (·.slot) =
      ((Mw.idShuffles).slotOrder (fixSchema.slots.map Prod.fst)).filter
        (fun s => strIn fixFrame.service (getDomain s)) ∧
    ∀ r ∈ fixUtr.rendered, (r.statePiece ≠ "" ↔ Sgd.cumuGet fixUtr.cumu r.slot ≠ "") :=
  claim_C6 fixCfg Mw.idShuffles fixSchema fixFrame fixCumu {} fixUtr rfl

/-- C9: the requested-slot ids rendered into the target are exactly the
already-assigned LocalIds of the requested slots, in the exact order the user
requested them (a `map` over the input list, never sorted), and every
requested slot must already carry a LocalId in this turn's assignment —
a successful render implies all lookups succeed (a missing one aborts). -/
theorem claim_C9 (cfg : Sgd.Config) (sh : Mw.Shuffles) (item_desc : Sgd.SchemaInfo)
    (frame : Sgd.Frame) (cumu0 : List (String × String)) (state_dict : Sgd.FrameState)
    (utr : Sgd.UserTurnResult)
    (h : Sgd.processUserTurn cfg sh item_desc frame cumu0 state_dict = .ok utr) :
    utr.state_dict.req_slots = state_dict.req_slots ++
      frame.requested_slots.map (fun r =>
        toString ((alookup (frame.service ++ "-" ++ r) utr.desc_to_slot_id).getD 0)) ∧
    ∀ r ∈ frame.requested_slots,
      (alookup (frame.service ++ "-" ++ r) utr.desc_to_slot_id).isSome := by
  obtain ⟨cumu1, rendered, req, _, _, hq, _, _, hd2id, _, hreq⟩ :=
    processUserTurn_ok cfg sh item_desc frame cumu0 state_dict utr h
  obtain ⟨hq1, hq2⟩ := processReqSlots_ok frame.service _ _ _ hq
  rw [hd2id]
  exact ⟨by rw [hreq, hq1], hq2⟩

/-- C9 witness: requested slots `["z", "x"]` of the fixture turn render as
`["1", "0"]` — the LocalIds in request order, not sorted. -/
theorem claim_C9_witness :
    fixUtr.state_dict.req_slots = (({} : Sgd.FrameState)).req_slots ++
      fixFrame.requested_slots.map (fun r =>
        toString ((alookup (fixFrame.service ++ "-" ++ r) fixUtr.desc_to_slot_id).getD 0)) ∧
    ∀ r ∈ fixFrame.requested_slots,
      (alookup (fixFrame.service ++ "-" ++ r) fixUtr.desc_to_slot_id).isSome :=
  claim_C9 fixCfg Mw.idShuffles fixSchema fixFrame fixCumu {} fixUtr rfl

/-- C10: a categorical slot with an empty `possible_values` list is
reclassified by `load_schema` as non-categorical with no options (the
all-numeric test is vacuously true on `[]`); consequently, even in
multiple-choice mode, such a slot joins no multiple-choice branch
(`slotIsMc` is false), its description carries no enumerated options, and an
active value is rendered raw (`t + value`), never as an option reference. -/
theorem claim_C10 (cfg : Sgd.Config) (sh : Mw.Shuffles) (item_desc : Sgd.SchemaInfo)
    (domain slot : String) (cumu : List (String × String)) (sid : Nat)
    (_hmc : cfg.multiple_choice ≠ .mcNone)
    (hcat : item_desc.is_categorical slot = false)
    (hdom : strIn domain (getDomain slot) = true) :
    Sgd.loadSchemaSlotInfo true [] = (false, []) ∧
    Sgd.slotIsMc cfg item_desc slot = false ∧
    Sgd.renderOneSgdSlot cfg sh item_desc domain cumu sid slot =
      .ok (some
        { slot := slot, slot_id := sid
          descPiece :=
            (let t := " " ++ toString sid ++ cfg.delimiter
             if cfg.lowercase then t ++ lowerStr (Sgd.descFor cfg item_desc slot) ++ " "
             else t ++ Sgd.descFor cfg item_desc slot ++ " ")
          statePiece :=
            (let t := " " ++ toString sid ++ cfg.delimiter
             let v := Sgd.cumuGet cumu slot
             let raw := if v ≠ "" then t ++ v else ""
             if cfg.lowercase then lowerStr raw else raw) }) := by
  have hIsMc : Sgd.slotIsMc cfg item_desc slot = false := by
    simp [Sgd.slotIsMc, hcat]
  refine ⟨by simp [Sgd.loadSchemaSlotInfo], hIsMc, ?_⟩
  rw [Sgd.renderOneSgdSlot, Sgd.sgdDescPiece, hIsMc]
  by_cases hv : Sgd.cumuGet cumu slot = "" <;>
    simp [Sgd.sgdStatePiece, hv, hdom, lowerStr]

/-- C10 witness: concrete non-categorical slot rendered raw under
multiple-choice mode. -/
theorem claim_C10_witness :
    Sgd.loadSchemaSlotInfo true [] = (false, []) ∧
    Sgd.slotIsMc { fixCfg with multiple_choice := .mcA } fixSchema "A-x" = false ∧
    Sgd.renderOneSgdSlot { fixCfg with multiple_choice := .mcA } Mw.idShuffles fixSchema
      "A" [("A-x", "8th")] 0 "A-x" =
      .ok (some
        { slot := "A-x", slot_id := 0
          descPiece :=
            (let t := " " ++ toString 0 ++ ({ fixCfg with multiple_choice := .mcA } : Sgd.Config).delimiter
             if ({ fixCfg with multiple_choice := .mcA } : Sgd.Config).lowercase then
               t ++ lowerStr (Sgd.descFor { fixCfg with multiple_choice := .mcA } fixSchema "A-x") ++ " "
             else t ++ Sgd.descFor { fixCfg with multiple_choice := .mcA } fixSchema "A-x" ++ " ")
          statePiece :=
            (let t := " " ++ toString 0 ++ ({ fixCfg with multiple_choice := .mcA } : Sgd.Config).delimiter
             let v := Sgd.cumuGet [("A-x", "8th")] "A-x"
             let raw := if v ≠ "" then t ++ v else ""
             if ({ fixCfg with multiple_choice := .mcA } : Sgd.Config).lowercase then lowerStr raw
             else raw) }) :=
  claim_C10 { fixCfg with multiple_choice := .mcA } Mw.idShuffles fixSchema "A" "A-x"
    [("A-x", "8th")] 0 (by decide) (by rfl) (by rfl)

/-- C2: the LocalId assignment is NOT injective across the frames of one
multi-frame turn: `process_turn` re-creates `state_dict` for every frame
(line 489), so on a turn with frames for domains `A` and `B`, slot `A-x`
(frame 0) and slot `B-y` (frame 1) are both assigned LocalId 0 even though
they are distinct schema items.  This evaluates the embedded `process_turn`
at that failing input. -/
theorem claim_C2 :
    (Sgd.processTurnUser fixCfg Mw.idShuffles fixSchema fixCumu
        [fixFrameA, fixFrameB]).map
      (fun p => p.1.map fun fo => fo.rendered.map fun r => (r.slot, r.slot_id)) =
      .ok [[("A-x", 0), ("A-z", 1)], [("B-y", 0)]] ∧
    ("A-x" : String) ≠ "B-y" := ⟨rfl, by decide⟩

/-- C4: on the same two-frame turn, the first frame renders two items
(LocalIds 0 and 1) but the second frame's numbering restarts at 0 instead of
continuing at 2: `state_dict = FrameState()` inside the frame loop resets the
`len(state_dict.slot_desc)` starting offset that `_process_user_turn` was
written to continue from. -/
theorem claim_C4 :
    (Sgd.processTurnUser fixCfg Mw.idShuffles fixSchema fixCumu
        [fixFrameA, fixFrameB]).map
      (fun p => p.1.map fun fo => fo.rendered.map fun r => r.slot_id) =
      .ok [[0, 1], [0]] ∧ (0 : Nat) ≠ 2 := ⟨rfl, by decide⟩

/-- C3 counterexample: an unrecognized predicted value for a categorical slot
is returned unchanged by `_normalize_value_prediction` — it is neither
recovered by a space-insensitive fallback nor replaced by the sentinel
`"unknown"`. -/
theorem claim_C3_counterexample :
    Dec.normalizeValuePrediction "s" "zzz" [("s", [("a", "x")])] = some "zzz" ∧
    (some ("zzz" : String)) ≠ some "unknown" := ⟨rfl, by decide⟩

/-- C3 (amended): normalization is total (never raises): a stripped `"none"`
produces no slot update; otherwise, for a slot with a reconstructed option
map, a value matching a known option letter is substituted with its mapped
value and any other value — `"dontcare"` included — is kept exactly as-is
(with a logged message); slots without an option map keep the value as-is. -/
theorem claim_C3 (slot_name value : String)
    (m : List (String × List (String × String))) :
    (pyStrip value = "none" → Dec.normalizeValuePrediction slot_name value m = none) ∧
    (pyStrip value ≠ "none" →
      Dec.normalizeValuePrediction slot_name value m =
        some (match alookup slot_name m with
              | some opts => (alookup (pyStrip value) opts).getD (pyStrip value)
              | none => pyStrip value)) := by
  unfold Dec.normalizeValuePrediction
  constructor
  · intro h
    simp [h]
  · intro h
    simp only [h, if_false]
    cases ho : alookup slot_name m with
    | none => simp
    | some opts =>
      cases hv : alookup (pyStrip value) opts with
      | none => simp [hv]
      | some mapped => simp [hv]

/-- C3 witness: `"none"` maps to absent; a known option letter is substituted. -/
theorem claim_C3_witness :
    Dec.normalizeValuePrediction "s" "none" [] = none ∧
    Dec.normalizeValuePrediction "s" "b" [("s", [("b", "true")])] =
      some (match alookup "s" [("s", [("b", "true")])] with
            | some opts => (alookup (pyStrip "b") opts).getD (pyStrip "b")
            | none => pyStrip "b") :=
  ⟨(claim_C3 "s" "none" []).1 (by decide),
   (claim_C3 "s" "b" [("s", [("b", "true")])]).2 (by decide)⟩

/-- C5 counterexample: in the MultiWOZ renderer, an active categorical value
that is not a member of the enumerated option list does NOT abort rendering:
`_process_one_turn` emits a target with the sentinel value `"unknown"`. -/
theorem claim_C5_counterexample :
    ("foo" : String) ∉ (["monday", "tuesday"] : List String) ∧
    Mw.processOneTurn mwOptsA Mw.idShuffles mwSchemaCat "d1" 1 [("train-day", "foo")]
      "" ["train"] [("train-day", ["day of train"])] =
      .ok { src := "0:day of train a) monday b) tuesday"
            tgt := "[states] 0:unknown [intents] [req_slots]"
            dialog_id := "d1", turn := 1 } := ⟨by decide, rfl⟩

/-- Errors of `sgdStatePiece` carry the membership-assert message. -/
theorem sgdStatePiece_error (cfg : Sgd.Config) (isMc : Bool) (sid : Nat)
    (pvs : List String) (value e : String)
    (h : Sgd.sgdStatePiece cfg isMc sid pvs value = .error e) :
    e = "AssertionError: value in possible_values" := by
  unfold Sgd.sgdStatePiece at h
  split at h
  · split at h
    · split at h
      · cases h
      · cases h; rfl
    · cases h
  · cases h

/-- C5 (amended): the two renderers disagree.  In the SGD renderer an active
categorical value absent from the (shuffled) option list aborts rendering
with the membership assertion (fail fast); in the MultiWOZ renderer the same
situation is recovered — after guest-house and space-insensitive fallbacks —
to the sentinel answer `"unknown"`, and a target is still emitted. -/
theorem claim_C5 :
    (∀ (cfg : Sgd.Config) (sh : Mw.Shuffles) (item_desc : Sgd.SchemaInfo)
        (domain slot : String) (cumu : List (String × String)) (sid : Nat),
      Sgd.slotIsMc cfg item_desc slot = true →
      strIn domain (getDomain slot) = true →
      (Sgd.slotPvs cfg sh item_desc slot).length < 26 →
      Sgd.cumuGet cumu slot ≠ "" →
      Sgd.cumuGet cumu slot ≠ "dontcare" →
      firstIdx (Sgd.cumuGet cumu slot) (Sgd.slotPvs cfg sh item_desc slot) = none →
      Sgd.renderOneSgdSlot cfg sh item_desc domain cumu sid slot =
        .error "AssertionError: value in possible_values") ∧
    (∀ (fmt : MCFormat) (i : Nat) (letters pvs : List String) (value : String),
      value ≠ "none" → value ≠ "dontcare" →
      firstIdx (if value = "guest house" then "guesthouse" else value) pvs = none →
      firstIdx (removeSpaces (if value = "guest house" then "guesthouse" else value))
        pvs = none →
      Mw.multipleChoiceAnswer fmt i letters pvs value = some "unknown") := by
  constructor
  · intro cfg sh item_desc domain slot cumu sid hmc hdom hlen hv hdc hidx
    rw [Sgd.renderOneSgdSlot]
    have hc : (Sgd.slotIsMc cfg item_desc slot &&
        !((Sgd.slotPvs cfg sh item_desc slot).length < 26)) = false := by
      simp [hlen]
    rw [hc]
    simp only [Bool.false_eq_true, if_false, hdom, if_true]
    have hs : Sgd.sgdStatePiece cfg (Sgd.slotIsMc cfg item_desc slot) sid
        (Sgd.slotPvs cfg sh item_desc slot) (Sgd.cumuGet cumu slot) =
        .error "AssertionError: value in possible_values" := by
      unfold Sgd.sgdStatePiece
      simp [hv, hmc, hdc, hidx]
    rw [hs]
  · intro fmt i letters pvs value hn hdc hidx1 hidx2
    unfold Mw.multipleChoiceAnswer
    simp only [hn, if_false, hdc, hidx1, hidx2]

/-- C5 witness: the SGD renderer aborts on `"foo"` outside `["mon","tue"]`;
the MultiWOZ answer for the same situation is `"unknown"`. -/
theorem claim_C5_witness :
    Sgd.renderOneSgdSlot { fixCfg with multiple_choice := .mcA } Mw.idShuffles
      fixSchemaCat "A" [("A-x", "foo")] 0 "A-x" =
      .error "AssertionError: value in possible_values" ∧
    Mw.multipleChoiceAnswer .mcA 0 lettersS ["mon", "tue"] "foo" = some "unknown" :=
  ⟨(claim_C5).1 { fixCfg with multiple_choice := .mcA } Mw.idShuffles fixSchemaCat
      "A" "A-x" [("A-x", "foo")] 0 (by rfl) (by rfl) (by decide) (by decide)
      (by decide) (by rfl),
   (claim_C5).2 .mcA 0 lettersS ["mon", "tue"] "foo" (by decide) (by decide)
      (by decide) (by decide)⟩

/-- C7 counterexample: with exactly 26 options — a count that "does not
exceed the 26 letters of the alphabet" — the option-count assertion fires
(`assert len(possible_values) < len(string.ascii_lowercase)` is strict), so
rendering fails instead of succeeding. -/
theorem claim_C7_counterexample :
    pv26.length = 26 ∧
    Sgd.renderOneSgdSlot { fixCfg with multiple_choice := .mcA } Mw.idShuffles
      fixSchema26 "A" [("A-x", "")] 0 "A-x" =
      .error "AssertionError: len(possible_values) < len(string.ascii_lowercase)" :=
  ⟨by decide, by rfl⟩

theorem zipMap_getD (f : String × String → String) :
    ∀ (ls pvs : List String) (k : Nat), k < pvs.length → pvs.length ≤ ls.length →
      ((ls.zip pvs).map f).getD k "" = f (ls.getD k "", pvs.getD k "") := by
  intro ls
  induction ls with
  | nil =>
    intro pvs k hk hle
    simp only [List.length_nil, Nat.le_zero] at hle
    rw [hle] at hk
    cases hk
  | cons a as ih =>
    intro pvs k hk hle
    cases pvs with
    | nil => cases hk
    | cons b bs =>
      cases k with
      | zero => simp [List.zip_cons_cons]
      | succ k' =>
        simp only [List.zip_cons_cons, List.map_cons, List.getD_cons_succ]
        exact ih bs k' (by simpa using hk) (by simpa using hle)

/-- C7 (amended): multiple-choice option letters are paired with values in the
exact display order of the (shuffled) `possible_values` — the `k`-th piece is
the `k`-th letter with the `k`-th value, for both formats — and the
option-count assertion cannot fire for any slot whose option list has
strictly fewer than 26 entries (at most 25; at exactly 26 it fires, see the
counterexample). -/
theorem claim_C7 :
    (∀ (sid : Nat) (pvs : List String) (k : Nat), k < pvs.length → pvs.length ≤ 26 →
      (Sgd.mcPieces .mcA sid pvs).getD k "" =
        lettersS.getD k "" ++ ") " ++ pvs.getD k "" ∧
      (Sgd.mcPieces .mcOneA sid pvs).getD k "" =
        toString sid ++ lettersS.getD k "" ++ ") " ++ pvs.getD k "" ∧
      (Sgd.mcPieces .mcA sid pvs).length = pvs.length) ∧
    (∀ (cfg : Sgd.Config) (sh : Mw.Shuffles) (item_desc : Sgd.SchemaInfo)
        (domain slot : String) (cumu : List (String × String)) (sid : Nat),
      (Sgd.slotPvs cfg sh item_desc slot).length < 26 →
      Sgd.renderOneSgdSlot cfg sh item_desc domain cumu sid slot ≠
        .error "AssertionError: len(possible_values) < len(string.ascii_lowercase)") := by
  constructor
  · intro sid pvs k hk h26
    have hlen : pvs.length ≤ lettersS.length := by
      have : lettersS.length = 26 := by decide
      omega
    refine ⟨?_, ?_, ?_⟩
    · exact zipMap_getD (fun p => p.1 ++ ") " ++ p.2) lettersS pvs k hk hlen
    · exact zipMap_getD (fun p => toString sid ++ p.1 ++ ") " ++ p.2) lettersS pvs k hk hlen
    · simp only [Sgd.mcPieces, List.length_map, List.length_zip]
      omega
  · intro cfg sh item_desc domain slot cumu sid hlen hcontra
    rw [Sgd.renderOneSgdSlot] at hcontra
    have hc : (Sgd.slotIsMc cfg item_desc slot &&
        !((Sgd.slotPvs cfg sh item_desc slot).length < 26)) = false := by
      simp [hlen]
    rw [hc] at hcontra
    simp only [Bool.false_eq_true, if_false] at hcontra
    by_cases hdom : strIn domain (getDomain slot) = true
    · simp only [hdom, if_true] at hcontra
      cases hs : Sgd.sgdStatePiece cfg (Sgd.slotIsMc cfg item_desc slot) sid
          (Sgd.slotPvs cfg sh item_desc slot) (Sgd.cumuGet cumu slot) with
      | error e =>
        rw [hs] at hcontra
        have := sgdStatePiece_error cfg _ sid _ _ e hs
        simp only at hcontra
        cases hcontra
        simp at this
      | ok s =>
        rw [hs] at hcontra
        simp at hcontra
    · simp only [hdom, Bool.false_eq_true, if_false] at hcontra
      cases hcontra

/-- C7 witness: 2 options, pieces in display order and no assertion. -/
theorem claim_C7_witness :
    ((Sgd.mcPieces .mcA 0 ["mon", "tue"]).getD 0 "" =
      lettersS.getD 0 "" ++ ") " ++ (["mon", "tue"] : List String).getD 0 "" ∧
     (Sgd.mcPieces .mcOneA 0 ["mon", "tue"]).getD 0 "" =
      toString 0 ++ lettersS.getD 0 "" ++ ") " ++ (["mon", "tue"] : List String).getD 0 "" ∧
     (Sgd.mcPieces .mcA 0 ["mon", "tue"]).length = (["mon", "tue"] : List String).length) ∧
    Sgd.renderOneSgdSlot { fixCfg with multiple_choice := .mcA } Mw.idShuffles
      fixSchemaCat "A" [("A-x", "mon")] 0 "A-x" ≠
      .error "AssertionError: len(possible_values) < len(string.ascii_lowercase)" :=
  ⟨(claim_C7).1 0 ["mon", "tue"] 0 (by decide) (by decide),
   (claim_C7).2 { fixCfg with multiple_choice := .mcA } Mw.idShuffles fixSchemaCat
     "A" "A-x" [("A-x", "mon")] 0 (by decide)⟩

/-- A successful association lookup exhibits a matching entry. -/
theorem alookup_isSome_exists {α : Type} (k : String) :
    ∀ l : List (String × α), (alookup k l).isSome = true → ∃ v, (k, v) ∈ l := by
  intro l
  induction l with
  | nil => intro h; simp [alookup] at h
  | cons p rest ih =>
    intro h
    rw [alookup] at h
    by_cases he : p.1 = k
    · exact ⟨p.2, by rw [List.mem_cons]; left; rw [← he]⟩
    · rw [if_neg he] at h
      obtain ⟨v, hv⟩ := ih h
      exact ⟨v, List.mem_cons_of_mem _ hv⟩

/-- A rendered MultiWOZ slot keeps its name, and carries a state piece only if
    the slot is present in the turn's belief state. -/
theorem renderMwSlot_ok (opts : Mw.Options) (sh : Mw.Shuffles)
    (schema : Mw.SchemaInfo) (descs : List (String × List String))
    (belief : List (String × String)) (i : Nat) (slot_name : String)
    (r : Mw.RenderedMwSlot)
    (h : Mw.renderMwSlot opts sh schema descs belief i slot_name = .ok r) :
    r.slot_name = slot_name ∧
    (r.statePiece.isSome = true → (alookup slot_name belief).isSome = true) := by
  unfold Mw.renderMwSlot at h
  simp only [Bind.bind, Except.bind] at h
  cases hd : alookup slot_name descs with
  | none => rw [hd] at h; cases h
  | some ds =>
    rw [hd] at h
    cases ds with
    | nil => cases h
    | cons d ds' =>
      dsimp only at h
      cases hs : (alookup (getDomain slot_name) schema).bind (alookup slot_name) with
      | none => rw [hs] at h; cases h
      | some slot =>
        rw [hs] at h
        dsimp only at h
        split at h
        · cases h
        · cases hb : alookup slot_name belief with
          | none =>
            rw [hb] at h
            dsimp only at h
            cases h
            exact ⟨rfl, by intro hc; cases hc⟩
          | some raw =>
            rw [hb] at h
            dsimp only at h
            cases hp : Mw.mwStatePiece opts (Mw.mwIsMc opts slot) i
                (Mw.mwPvs opts sh slot_name slot) raw with
            | error e => rw [hp] at h; cases h
            | ok piece =>
              rw [hp] at h
              cases h
              exact ⟨rfl, fun _ => rfl⟩

/-- Slots rendered into the target all belong to the turn's belief state:
    over a whole `renderMwSlots` run, every state piece's slot has a domain
    outside the blocked set whenever the turn's belief domains avoid it. -/
theorem renderMwSlots_blocked (opts : Mw.Options) (sh : Mw.Shuffles)
    (schema : Mw.SchemaInfo) (descs : List (String × List String))
    (belief : List (String × String))
    (hdis : ∀ d ∈ Mw.extractDomains belief, opts.blocked_domains.contains d = false) :
    ∀ (names : List String) (i : Nat) (rs : List Mw.RenderedMwSlot),
      Mw.renderMwSlots opts sh schema descs belief i names = .ok rs →
      ∀ r ∈ rs, r.statePiece.isSome = true →
        opts.blocked_domains.contains (getDomain r.slot_name) = false := by
  intro names
  induction names with
  | nil =>
    intro i rs h
    simp only [Mw.renderMwSlots] at h
    cases h
    intro r hr
    cases hr
  | cons name rest ih =>
    intro i rs h
    rw [Mw.renderMwSlots] at h
    simp only [Bind.bind, Except.bind] at h
    cases h1 : Mw.renderMwSlot opts sh schema descs belief i name with
    | error e => rw [h1] at h; cases h
    | ok r0 =>
      rw [h1] at h
      dsimp only at h
      cases h2 : Mw.renderMwSlots opts sh schema descs belief (i + 1) rest with
      | error e => rw [h2] at h; cases h
      | ok rs' =>
        rw [h2] at h
        dsimp only at h
        cases h
        intro r hr hsome
        rw [List.mem_cons] at hr
        rcases hr with hr | hr
        · subst hr
          obtain ⟨hname, hmem⟩ := renderMwSlot_ok opts sh schema descs belief i name r h1
          obtain ⟨v, hv⟩ := alookup_isSome_exists name belief (hmem hsome)
          rw [hname]
          exact hdis (getDomain name) (by
            unfold Mw.extractDomains
            exact List.mem_map_of_mem _ hv)
        · exact ih (i + 1) rs' h2 r hr hsome

/-- C8 counterexample: with the `hotel` domain blocked and
`use_active_domains_only` off, the run still emits (1) an example whose
prompt contains the blocked-domain slot `hotel-area`, and (2) an example for
a turn whose active-domain set is empty — a subset of the blocked set — so
both halves of the claim fail as stated. -/
theorem claim_C8_counterexample :
    Mw.createSchemalessData mwOptsBlocked Mw.idShuffles mwSchemaHT mwDescsHT mwDialogsHT =
      .ok [ { src := "0:hotel-area 1:train-day [user] hi"
              tgt := "[states] 1:monday [intents] [req_slots]"
              dialog_id := "d1", turn := 1 },
            { src := "0:hotel-area 1:train-day [user] hi2"
              tgt := "[states] [intents] [req_slots]"
              dialog_id := "d2", turn := 1 } ] ∧
    strIn "hotel-area" "0:hotel-area 1:train-day [user] hi" = true ∧
    Mw.extractDomains [] = [] ∧
    (∀ d ∈ Mw.extractDomains [], d ∈ mwOptsBlocked.blocked_domains) :=
  ⟨rfl, rfl, rfl, by intro d hd; cases hd⟩

/-- C8 (amended): with a non-empty blocked-domain set, (a) a system turn whose
belief-state domains intersect the blocked set is skipped wholesale (zero
examples, and its utterance is not even added to the history); hence (b)
every turn whose active domains form a NON-EMPTY subset of the blocked set
produces zero examples; and (c) every emitted example's target renders
values only for slots of non-blocked domains.  Prompts, however, still
describe every schema slot (blocked domains included) unless
`use_active_domains_only` is set, and empty-belief turns still emit. -/
theorem claim_C8 :
    (∀ (opts : Mw.Options) (sh : Mw.Shuffles) (schema : Mw.SchemaInfo)
        (descs : List (String × List String)) (did : String) (turn_num : Nat)
        (hist : String) (t : Mw.MwTurn) (rest : List Mw.MwTurn),
      turn_num % 2 = 1 →
      Mw.intersectsBlocked (Mw.extractDomains t.belief_state) opts.blocked_domains = true →
      Mw.processDialogTurns opts sh schema descs did turn_num hist (t :: rest) =
        Mw.processDialogTurns opts sh schema descs did (turn_num + 1) hist rest) ∧
    (∀ (doms blocked : List String), doms ≠ [] →
      (∀ d ∈ doms, blocked.contains d = true) →
      Mw.intersectsBlocked doms blocked = true) ∧
    (∀ (opts : Mw.Options) (sh : Mw.Shuffles) (schema : Mw.SchemaInfo)
        (descs : List (String × List String)) (belief : List (String × String))
        (names : List String) (i : Nat) (rs : List Mw.RenderedMwSlot),
      Mw.renderMwSlots opts sh schema descs belief i names = .ok rs →
      Mw.intersectsBlocked (Mw.extractDomains belief) opts.blocked_domains = false →
      ∀ r ∈ rs, r.statePiece.isSome = true →
        opts.blocked_domains.contains (getDomain r.slot_name) = false) := by
  refine ⟨?_, ?_, ?_⟩
  · intro opts sh schema descs did turn_num hist t rest hodd hint
    rw [Mw.processDialogTurns]
    simp [hodd, hint]
  · intro doms blocked hne hall
    cases doms with
    | nil => exact absurd rfl hne
    | cons d ds =>
      unfold Mw.intersectsBlocked
      rw [List.any_cons]
      rw [hall d (List.mem_cons_self d ds)]
      rfl
  · intro opts sh schema descs belief names i rs h hint
    have hdis : ∀ d ∈ Mw.extractDomains belief,
        opts.blocked_domains.contains d = false := by
      intro d hd
      unfold Mw.intersectsBlocked at hint
      rw [List.any_eq_false] at hint
      have := hint d hd
      simpa using this
    exact renderMwSlots_blocked opts sh schema descs belief hdis names i rs h

/-- C8 witness: a blocked system turn is skipped; a non-empty subset
intersects; the emitted `train` turn's target slots avoid `hotel`. -/
theorem claim_C8_witness :
    Mw.processDialogTurns mwOptsBlocked Mw.idShuffles mwSchemaHT mwDescsHT "w" 1 ""
        [⟨"sys", [("hotel-area", "north")]⟩] =
      Mw.processDialogTurns mwOptsBlocked Mw.idShuffles mwSchemaHT mwDescsHT "w" 2 "" [] ∧
    Mw.intersectsBlocked ["hotel"] ["hotel"] = true ∧
    (∀ r ∈ mwWitnessRendered, r.statePiece.isSome = true →
      mwOptsBlocked.blocked_domains.contains (getDomain r.slot_name) = false) :=
  ⟨(claim_C8).1 mwOptsBlocked Mw.idShuffles mwSchemaHT mwDescsHT "w" 1 ""
      ⟨"sys", [("hotel-area", "north")]⟩ [] (by decide) (by rfl),
   (claim_C8).2.1 ["hotel"] ["hotel"] (by decide) (by decide),
   (claim_C8).2.2 mwOptsBlocked Mw.idShuffles mwSchemaHT mwDescsHT
      [("train-day", "monday")] ["hotel-area", "train-day"] 0 mwWitnessRendered
      (by rfl) (by rfl)⟩

/-! ## Lemmas for the option-block round trip (C1) -/

theorem dropWhile_of_head (p : Char → Bool) :
    ∀ l : List Char, (match l.head? with | some c => !p c | none => true) = true →
      l.dropWhile p = l := by
  intro l h
  cases l with
  | nil => rfl
  | cons c rest =>
    simp only [List.head?_cons, Bool.not_eq_true'] at h
    simp [List.dropWhile_cons, h]

theorem stripChars_wf (v : List Char)
    (hh : (match v.head? with | some c => !isStripChar c | none => true) = true)
    (hl : (match v.getLast? with | some c => !isStripChar c | none => true) = true) :
    stripChars v = v := by
  unfold stripChars
  rw [dropWhile_of_head _ v hh]
  rw [dropWhile_of_head _ v.reverse (by rw [List.head?_reverse]; exact hl)]
  exact List.reverse_reverse v

theorem stripChars_append_space (v : List Char)
    (hh : (match v.head? with | some c => !isStripChar c | none => true) = true)
    (hl : (match v.getLast? with | some c => !isStripChar c | none => true) = true) :
    stripChars (v ++ [' ']) = v := by
  cases v with
  | nil => rfl
  | cons c rest =>
    unfold stripChars
    rw [dropWhile_of_head _ ((c :: rest) ++ [' ']) (by
      simp only [List.cons_append, List.head?_cons]
      simpa using hh)]
    rw [List.reverse_append, List.reverse_singleton, List.singleton_append]
    rw [List.dropWhile_cons]
    rw [if_pos (show isStripChar ' ' = true from rfl)]
    rw [dropWhile_of_head _ (c :: rest).reverse (by rw [List.head?_reverse]; exact hl)]
    exact List.reverse_reverse _

theorem blockChars_cons (c : Char) (v : String) (rest : List (Char × String)) :
    Dec.blockChars ((c, v) :: rest) =
      c :: ')' :: ' ' :: (v.data ++ Dec.blockSuffix rest) := by
  cases rest <;> rfl

theorem firstIdx_spec (v : String) :
    ∀ (l : List String) (j : Nat), firstIdx v l = some j →
      j < l.length ∧ l.getD j "" = v := by
  intro l
  induction l with
  | nil => intro j h; cases h
  | cons x rest ih =>
    intro j h
    rw [firstIdx] at h
    by_cases hx : x = v
    · rw [if_pos hx] at h
      cases h
      exact ⟨by simp, hx⟩
    · rw [if_neg hx] at h
      cases hf : firstIdx v rest with
      | none => rw [hf] at h; cases h
      | some j' =>
        rw [hf] at h
        cases h
        obtain ⟨hj1, hj2⟩ := ih j' hf
        exact ⟨by simpa using hj1, by simpa using hj2⟩

theorem removeSpaces_idem (s : String) :
    removeSpaces (removeSpaces s) = removeSpaces s := by
  simp [removeSpaces, List.filter_filter]

theorem charStr_injective {a b : Char} (h : charStr a = charStr b) : a = b := by
  have h2 : ([a] : List Char) = [b] := congrArg String.data h
  simpa using h2

theorem noMarker_tail (c : Char) (rest : List Char)
    (hm : Dec.noMarker (c :: rest) = true) : Dec.noMarker rest = true := by
  cases rest with
  | nil => rfl
  | cons d rest' =>
    simp only [Dec.noMarker, Bool.and_eq_true] at hm
    exact hm.2

theorem noMarker_head_cond (c : Char) (rest : List Char)
    (hm : Dec.noMarker (c :: rest) = true) :
    (Dec.isLowerAZ c && Dec.leadsParen rest) = false := by
  cases rest with
  | nil => simp [Dec.leadsParen]
  | cons d rest' =>
    by_cases hd : d = ')'
    · subst hd
      simp only [Dec.noMarker, Bool.and_eq_true, Bool.not_eq_true'] at hm
      have h1 : Dec.isLowerAZ c = false := by simpa using hm.1
      simp [Dec.leadsParen, h1]
    · simp [Dec.leadsParen, hd]

/-- Unconditional one-step unfolding of the scanner on a cons cell. -/
theorem scanOpts_cons (cur : Option (Char × List Char)) (c : Char) (rest : List Char) :
    Dec.scanOpts cur (c :: rest) =
      if (Dec.isLowerAZ c && Dec.leadsParen rest) = true then
        Dec.finishOpt cur ++
          (match rest with
           | ')' :: ' ' :: tail => Dec.scanOpts (some (c, [])) tail
           | r => Dec.scanOpts none r)
      else
        (match cur with
         | some (l, acc) => Dec.scanOpts (some (l, c :: acc)) rest
         | none => Dec.scanOpts none rest) := by
  rw [Dec.scanOpts.eq_def]

theorem scan_capture_end :
    ∀ (v : List Char) (l : Char) (acc : List Char), Dec.noMarker v = true →
      Dec.scanOpts (some (l, acc)) v =
        [(l, String.mk (stripChars (acc.reverse ++ v)))] := by
  intro v
  induction v with
  | nil =>
    intro l acc _
    simp [Dec.scanOpts, Dec.finishOpt]
  | cons c rest ih =>
    intro l acc hm
    have hcond := noMarker_head_cond c rest hm
    rw [scanOpts_cons, hcond]
    simp only [Bool.false_eq_true, if_false]
    rw [ih l (c :: acc) (noMarker_tail c rest hm)]
    rw [List.reverse_cons, List.append_assoc, List.singleton_append]

theorem wfValue_parts (v : String) (h : Dec.wfValue v = true) :
    Dec.noMarker v.data = true ∧
    (match v.data.head? with | some c => !isStripChar c | none => true) = true ∧
    (match v.data.getLast? with | some c => !isStripChar c | none => true) = true := by
  simp only [Dec.wfValue, Bool.and_eq_true] at h
  exact ⟨h.1.1.1, h.1.2, h.2⟩

theorem scan_capture_step :
    ∀ (v : List Char) (l : Char) (acc : List Char) (b : Char) (tail : List Char),
      Dec.noMarker v = true → Dec.isLowerAZ b = true →
      Dec.scanOpts (some (l, acc)) (v ++ ' ' :: b :: ')' :: ' ' :: tail) =
        (l, String.mk (stripChars (acc.reverse ++ v ++ [' ']))) ::
          Dec.scanOpts (some (b, [])) tail := by
  intro v
  induction v with
  | nil =>
    intro l acc b tail _ hb
    rw [List.nil_append]
    rw [scanOpts_cons]
    have hsp : (Dec.isLowerAZ ' ' && Dec.leadsParen (b :: ')' :: ' ' :: tail)) = false := by
      simp [Dec.isLowerAZ]
    rw [hsp]
    simp only [Bool.false_eq_true, if_false]
    rw [scanOpts_cons]
    have hbc : (Dec.isLowerAZ b && Dec.leadsParen (')' :: ' ' :: tail)) = true := by
      simp [hb, Dec.leadsParen]
    rw [hbc]
    simp only [if_true]
    simp [Dec.finishOpt, List.reverse_cons]
  | cons c v' ih =>
    intro l acc b tail hm hb
    rw [List.cons_append, scanOpts_cons]
    have hcond :
        (Dec.isLowerAZ c && Dec.leadsParen (v' ++ ' ' :: b :: ')' :: ' ' :: tail)) = false := by
      cases v' with
      | nil => simp [Dec.leadsParen]
      | cons d v'' =>
        rw [List.cons_append]
        simp only [Dec.noMarker, Bool.and_eq_true, Bool.not_eq_true'] at hm
        simp [Dec.leadsParen, hm.1]
    rw [hcond]
    simp only [Bool.false_eq_true, if_false]
    rw [ih l (c :: acc) b tail (noMarker_tail c v' hm) hb]
    simp [List.append_assoc]

theorem scan_capture_block :
    ∀ (ps : List (Char × String)) (l : Char) (v : String),
      Dec.wfValue v = true →
      (∀ p ∈ ps, Dec.isLowerAZ p.1 = true ∧ Dec.wfValue p.2 = true) →
      Dec.scanOpts (some (l, [])) (v.data ++ Dec.blockSuffix ps) = (l, v) :: ps := by
  intro ps
  induction ps with
  | nil =>
    intro l v hv _
    obtain ⟨hm, hh, hl⟩ := wfValue_parts v hv
    rw [show Dec.blockSuffix [] = [] from rfl, List.append_nil]
    rw [scan_capture_end v.data l [] hm]
    rw [show (([] : List Char).reverse ++ v.data) = v.data from rfl]
    rw [stripChars_wf v.data hh hl]
  | cons p rest ih =>
    intro l v hv hall
    obtain ⟨c, w⟩ := p
    obtain ⟨hm, hh, hl⟩ := wfValue_parts v hv
    rw [show Dec.blockSuffix ((c, w) :: rest) = ' ' :: Dec.blockChars ((c, w) :: rest)
      from rfl]
    rw [blockChars_cons]
    rw [show (v.data ++ ' ' :: c :: ')' :: ' ' :: (w.data ++ Dec.blockSuffix rest)) =
      (v.data ++ (' ' :: c :: ')' :: ' ' :: (w.data ++ Dec.blockSuffix rest))) from rfl]
    rw [scan_capture_step v.data l [] c (w.data ++ Dec.blockSuffix rest) hm
      (hall (c, w) (List.mem_cons_self _ _)).1]
    rw [show (([] : List Char).reverse ++ v.data ++ [' ']) = v.data ++ [' '] from by simp]
    rw [stripChars_append_space v.data hh hl]
    rw [ih c w (hall (c, w) (List.mem_cons_self _ _)).2
      (fun p hp => hall p (List.mem_cons_of_mem _ hp))]

theorem scan_block (ps : List (Char × String))
    (hall : ∀ p ∈ ps, Dec.isLowerAZ p.1 = true ∧ Dec.wfValue p.2 = true) :
    Dec.scanOpts none (Dec.blockChars ps) = ps := by
  cases ps with
  | nil =>
    rw [show Dec.blockChars [] = [] from rfl, Dec.scanOpts.eq_1]
    rfl
  | cons p rest =>
    obtain ⟨c, w⟩ := p
    rw [blockChars_cons, scanOpts_cons]
    have hc : Dec.isLowerAZ c = true := (hall (c, w) (List.mem_cons_self _ _)).1
    have hbc : (Dec.isLowerAZ c &&
        Dec.leadsParen (')' :: ' ' :: (w.data ++ Dec.blockSuffix rest))) = true := by
      simp [hc, Dec.leadsParen]
    rw [hbc]
    simp only [if_true]
    rw [show Dec.finishOpt none = [] from rfl]
    rw [List.nil_append]
    exact scan_capture_block rest c w (hall (c, w) (List.mem_cons_self _ _)).2
      (fun p hp => hall p (List.mem_cons_of_mem _ hp))

theorem mcOptionsTextA_data :
    ∀ ps : List (Char × String),
      (joinSpace (ps.map fun p => charStr p.1 ++ ") " ++ p.2)).data = Dec.blockChars ps := by
  intro ps
  induction ps with
  | nil => rfl
  | cons p rest ih =>
    obtain ⟨c, w⟩ := p
    cases rest with
    | nil =>
      rw [blockChars_cons]
      show (charStr c ++ ") " ++ w).data = _
      rw [String.data_append, String.data_append]
      rw [show Dec.blockSuffix [] = [] from rfl, List.append_nil]
      rfl
    | cons q rest' =>
      rw [blockChars_cons]
      show (charStr c ++ ") " ++ w ++ " " ++
        joinSpace (((q :: rest').map fun p => charStr p.1 ++ ") " ++ p.2))).data = _
      rw [String.data_append, String.data_append, String.data_append, String.data_append]
      rw [ih]
      rw [show Dec.blockSuffix (q :: rest') = ' ' :: Dec.blockChars (q :: rest') from rfl]
      simp [charStr, List.append_assoc]

theorem alookup_zip_letters :
    ∀ (ls : List Char) (pvs : List String) (i : Nat),
      i < pvs.length → pvs.length ≤ ls.length → ls.Nodup →
      alookup (charStr (ls.getD i 'a'))
        ((ls.zip pvs).map fun p => (charStr p.1, p.2)) = some (pvs.getD i "") := by
  intro ls
  induction ls with
  | nil =>
    intro pvs i hi hle _
    simp only [List.length_nil, Nat.le_zero, List.length_eq_zero] at hle
    subst hle
    cases hi
  | cons c ls' ih =>
    intro pvs i hi hle hnd
    cases pvs with
    | nil => cases hi
    | cons v pvs' =>
      cases i with
      | zero => simp [alookup]
      | succ i' =>
        have hi' : i' < pvs'.length := by simpa using hi
        have hle' : pvs'.length ≤ ls'.length := by simpa using hle
        have hnd' : ls'.Nodup := (List.nodup_cons.mp hnd).2
        have hcmem : c ∉ ls' := (List.nodup_cons.mp hnd).1
        have hne : charStr c ≠ charStr (ls'.getD i' 'a') := by
          intro he
          apply hcmem
          rw [charStr_injective he]
          rw [List.getD_eq_getElem ls' 'a' (lt_of_lt_of_le hi' hle')]
          exact List.getElem_mem _
        rw [List.getD_cons_succ, List.getD_cons_succ]
        rw [List.zip_cons_cons, List.map_cons]
        rw [alookup, if_neg hne]
        exact ih pvs' i' hi' hle' hnd'

theorem lettersS_getD (i : Nat) (hi : i < 26) :
    lettersS.getD i "" = charStr (lettersC.getD i 'a') := by
  have h1 : i < lettersC.length := by
    rw [show lettersC.length = 26 from rfl]
    exact hi
  have h2 : i < lettersS.length := by
    rw [show lettersS.length = 26 from rfl]
    exact hi
  rw [List.getD_eq_getElem _ _ h2, List.getD_eq_getElem _ _ h1]
  simp [lettersS]

theorem pyStrip_charStr (c : Char) (h : isStripChar c = false) :
    pyStrip (charStr c) = charStr c := by
  simp [pyStrip, charStr, stripChars, h]

theorem removeSpaces_gh (value : String) :
    removeSpaces (if value = "guest house" then "guesthouse" else value) =
      removeSpaces value := by
  by_cases h : value = "guest house"
  · rw [if_pos h, h]
    decide
  · rw [if_neg h]

/-- If `_multiple_choice_answer` in format `"a"` produced a proper letter
    reference (not one of the literal sentinels), the letter indexes a member
    of the shuffled option list whose space-stripped form equals the original
    value's. -/
theorem mca_letter (sid : Nat) (pvs : List String) (value ans : String)
    (h : Mw.multipleChoiceAnswer .mcA sid lettersS pvs value = some ans)
    (hno : ans ≠ "none") (hdc : ans ≠ "dontcare") (hunk : ans ≠ "unknown") :
    ∃ j, j < pvs.length ∧ ans = lettersS.getD j "" ∧
      removeSpaces (pvs.getD j "") = removeSpaces value := by
  unfold Mw.multipleChoiceAnswer at h
  by_cases h1 : value = "none"
  · rw [if_pos h1] at h
    cases h
    exact absurd rfl hno
  · rw [if_neg h1] at h
    by_cases h2 : value = "dontcare"
    · rw [if_pos h2] at h
      cases h
      exact absurd rfl hdc
    · rw [if_neg h2] at h
      simp only [Option.bind] at h
      cases hf : firstIdx (if value = "guest house" then "guesthouse" else value) pvs with
      | some j =>
        rw [hf] at h
        obtain ⟨hj, hv⟩ := firstIdx_spec _ pvs j hf
        refine ⟨j, hj, ?_, ?_⟩
        · cases h
          rfl
        · rw [hv]
          exact removeSpaces_gh value
      | none =>
        rw [hf] at h
        cases hf2 : firstIdx
            (removeSpaces (if value = "guest house" then "guesthouse" else value)) pvs with
        | some j =>
          rw [hf2] at h
          obtain ⟨hj, hv⟩ := firstIdx_spec _ pvs j hf2
          refine ⟨j, hj, ?_, ?_⟩
          · cases h
            rfl
          · rw [hv, removeSpaces_idem]
            exact removeSpaces_gh value
        | none =>
          rw [hf2] at h
          cases h
          exact absurd rfl hunk

/-- C1: the multiple-choice round trip.  For a categorical slot rendered in
multiple-choice mode whose cumulative value is rendered in the target as an
option-letter reference (a proper letter, not the `"none"`/`"dontcare"`/
`"unknown"` sentinels), reconstructing the letter-to-value option map from
the rendered option block alone (the decoder's regex over the prompt text)
and resolving the target's letter through `_normalize_value_prediction`
recovers the slot's original value up to space-insensitive normalization of
the `"guest house"`/`"guesthouse"` kind. -/
theorem claim_C1 (slot value ans : String) (pvs : List String) (sid : Nat)
    (hwf : ∀ p ∈ pvs, Dec.wfValue p = true)
    (hlen : pvs.length ≤ 26)
    (hans : Mw.multipleChoiceAnswer .mcA sid lettersS pvs value = some ans)
    (hno : ans ≠ "none") (hdc : ans ≠ "dontcare") (hunk : ans ≠ "unknown") :
    ∃ res, Dec.normalizeValuePrediction slot ans
        [(slot, Dec.parseOptionBlock (Mw.mcOptionsTextA pvs))] = some res ∧
      removeSpaces res = removeSpaces value ∧ res ∈ pvs := by
  obtain ⟨j, hj, hansj, hrm⟩ := mca_letter sid pvs value ans hans hno hdc hunk
  have hj26 : j < 26 := lt_of_lt_of_le hj hlen
  have hletter : ans = charStr (lettersC.getD j 'a') := by
    rw [hansj]
    exact lettersS_getD j hj26
  have hjC : j < lettersC.length := by
    rw [show lettersC.length = 26 from rfl]
    exact hj26
  have hmemC : lettersC.getD j 'a' ∈ lettersC := by
    rw [List.getD_eq_getElem _ _ hjC]
    exact List.getElem_mem _
  have hnotstrip : isStripChar (lettersC.getD j 'a') = false := by
    have hall : ∀ c ∈ lettersC, isStripChar c = false := by decide
    exact hall _ hmemC
  -- the decoder's parse of the rendered option block
  have hparse : Dec.parseOptionBlock (Mw.mcOptionsTextA pvs) =
      (lettersC.zip pvs).map fun p => (charStr p.1, p.2) := by
    unfold Dec.parseOptionBlock Mw.mcOptionsTextA
    rw [mcOptionsTextA_data]
    rw [scan_block]
    intro p hp
    obtain ⟨hpl, hpv⟩ := List.of_mem_zip hp
    constructor
    · have hall : ∀ c ∈ lettersC, Dec.isLowerAZ c = true := by decide
      exact hall _ hpl
    · exact hwf _ hpv
  refine ⟨pvs.getD j "", ?_, hrm, ?_⟩
  · unfold Dec.normalizeValuePrediction
    rw [hletter, pyStrip_charStr _ hnotstrip]
    rw [if_neg (by rw [← hletter]; exact hno)]
    rw [show alookup slot [(slot, Dec.parseOptionBlock (Mw.mcOptionsTextA pvs))] =
      some (Dec.parseOptionBlock (Mw.mcOptionsTextA pvs)) from by simp [alookup]]
    rw [hparse]
    dsimp only
    rw [alookup_zip_letters lettersC pvs j hj
      (by rw [show lettersC.length = 26 from rfl]; exact hlen) (by decide)]
  · rw [List.getD_eq_getElem _ _ hj]
    exact List.getElem_mem _

/-- C1 witness: the spec's concrete scenario — options rendered in display
order `a) leicester b) cambridge`, value `cambridge` encoded as letter `b`,
decoded back to `cambridge`. -/
theorem claim_C1_witness :
    ∃ res, Dec.normalizeValuePrediction "train-departure" "b"
        [("train-departure",
          Dec.parseOptionBlock (Mw.mcOptionsTextA ["leicester", "cambridge"]))] =
        some res ∧
      removeSpaces res = removeSpaces "cambridge" ∧
      res ∈ (["leicester", "cambridge"] : List String) :=
  claim_C1 "train-departure" "cambridge" "b" ["leicester", "cambridge"] 0
    (by decide) (by decide) (by decide) (by decide) (by decide) (by decide)

end Gtod
